import Mathlib

/-!
Verification of the 6502/NES emulator core (kyhou/nes_emulator).

Shallow embedding of the parts of `src/cpu.rs`, `src/ppu.rs`,
`src/cartridge.rs` and `src/mapper_000.rs` that the checked claims are
about.  All 8-bit and 16-bit machine quantities are `Nat`s reduced with
an explicit `% 2^8` / `% 2^16` wherever the Rust code wraps.  The system
bus seen by the CPU (`Bus::cpu_read` / `Bus::cpu_write` behind
`Cpu::read` / `Cpu::write`) is abstracted as a byte memory
`mem : Nat → Nat`; every value read through it is truncated to a byte,
exactly as the bus returns `u8`.
-/

namespace NesEmu

/-- Truncate to 8 bits (`u8` wrapping arithmetic). -/
def u8 (n : Nat) : Nat := n % 256

/-- Truncate to 16 bits (`u16` wrapping arithmetic). -/
def u16 (n : Nat) : Nat := n % 65536

/-! ## CPU state (`struct Cpu` in src/cpu.rs)

Only the registers and internal latches touched by the claims are
carried.  `impMode` abstracts the test
`lookup[opcode].addrmode == Cpu::imp` that `Cpu::fetch` and the
shift/rotate write-back perform against the 256-entry opcode table:
it is `true` exactly when the current opcode uses implied addressing. -/

structure CpuState where
  a : Nat
  x : Nat
  y : Nat
  stkp : Nat
  pc : Nat
  status : Nat
  fetched : Nat
  addr_abs : Nat
  addr_rel : Nat
  cycles : Nat
  impMode : Bool
  mem : Nat → Nat

/-! Status flag masks, from `enum Flags` in src/cpu.rs. -/

def flagC : Nat := 0x01
def flagZ : Nat := 0x02
def flagI : Nat := 0x04
def flagD : Nat := 0x08
def flagB : Nat := 0x10
def flagU : Nat := 0x20
def flagV : Nat := 0x40
def flagN : Nat := 0x80

/-- `Cpu::get_flag`: 1 when the masked bit is set, else 0. -/
def getFlag (s : CpuState) (f : Nat) : Nat :=
  if s.status &&& f > 0 then 1 else 0

/-- `Cpu::set_flag`: set or clear a mask in the 8-bit status byte. -/
def setFlag (st f : Nat) (v : Bool) : Nat :=
  if v then st ||| f else st &&& (0xFF ^^^ f)

/-- `Cpu::read` through the bus: returns a byte. -/
def CpuState.read (s : CpuState) (a : Nat) : Nat := u8 (s.mem (u16 a))

/-- `Cpu::write` through the bus: stores a byte. -/
def CpuState.write (s : CpuState) (a d : Nat) : CpuState :=
  { s with mem := fun a' => if a' = u16 a then u8 d else s.mem a' }

/-- `Cpu::fetch`: unless the opcode is implied-addressing, load the
operand byte from `addr_abs` into `fetched`. -/
def CpuState.fetch (s : CpuState) : CpuState :=
  if s.impMode then s else { s with fetched := s.read s.addr_abs }

/-- `Cpu::irq` (src/cpu.rs): hardware interrupt entry.  Note the source
computes the new PC as `read(0xFFFE) | (read(0xFFFF) >> 8)` — a
`wrapping_shr(8)` where documented 6502 behaviour needs
`wrapping_shl(8)` — so the high vector byte is shifted away. -/
def CpuState.irq (s : CpuState) : CpuState :=
  if getFlag s flagI = 0 then
    let s1 := s.write (u16 (0x0100 + s.stkp)) ((s.pc >>> 8) &&& 0x00FF)
    let s2 := { s1 with stkp := u8 (s1.stkp + 255) }
    let s3 := s2.write (u16 (0x0100 + s2.stkp)) (s2.pc &&& 0x00FF)
    let s4 := { s3 with stkp := u8 (s3.stkp + 255) }
    let s5a := { s4 with status := setFlag s4.status flagB false }
    let s5b := { s5a with status := setFlag s5a.status flagU true }
    let s5 := { s5b with status := setFlag s5b.status flagI true }
    let s6 := s5.write (u16 (0x0100 + s5.stkp)) s5.status
    let s7 := { s6 with stkp := u8 (s6.stkp + 255) }
    let s8 := { s7 with addr_abs := 0xFFFE }
    let lo := s8.read s8.addr_abs
    let hi := s8.read (u16 (s8.addr_abs + 1))
    let s9 := { s8 with pc := lo ||| (hi >>> 8) }
    { s9 with cycles := 7 }
  else s

/-- `Cpu::adc`: add with carry through a 16-bit temporary. -/
def CpuState.adc (s : CpuState) : CpuState × Nat :=
  let s := s.fetch
  let temp := u16 (s.a + s.fetched + getFlag s flagC)
  let st := setFlag s.status flagC (decide (temp > 255))
  let st := setFlag st flagZ (decide ((temp &&& 0x00FF) = 0))
  let st := setFlag st flagN (decide ((temp &&& 0x0080) = 0x0080))
  let st := setFlag st flagV
    (decide (((0xFFFF ^^^ (s.a ^^^ s.fetched)) &&& (s.a ^^^ temp) &&& 0x0080) = 0x0080))
  ({ s with status := st, a := temp &&& 0x00FF }, 1)

/-- `Cpu::sbc`: subtract with carry; the operand is XORed with 0xFF and
fed through the adder.  The source sets carry from
`(temp & 0xFF00) == 0xFF00`. -/
def CpuState.sbc (s : CpuState) : CpuState × Nat :=
  let s := s.fetch
  let value := s.fetched ^^^ 0x00FF
  let temp := u16 (s.a + value + getFlag s flagC)
  let st := setFlag s.status flagC (decide ((temp &&& 0xFF00) = 0xFF00))
  let st := setFlag st flagZ (decide ((temp &&& 0x00FF) = 0))
  let st := setFlag st flagN (decide ((temp &&& 0x0080) = 0x0080))
  let st := setFlag st flagV
    (decide (((temp ^^^ s.a) &&& (temp ^^^ value) &&& 0x0080) = 0x0080))
  ({ s with status := st, a := temp &&& 0x00FF }, 1)

/-- `Cpu::ror`: rotate right through carry.  The source sets Z from
`(temp & 0x00FF) == 0x00FF`. -/
def CpuState.ror (s : CpuState) : CpuState × Nat :=
  let s := s.fetch
  let temp := u8 (getFlag s flagC <<< 7) ||| (s.fetched >>> 1)
  let st := setFlag s.status flagC (decide ((s.fetched &&& 0x01) = 0x01))
  let st := setFlag st flagZ (decide ((temp &&& 0x00FF) = 0x00FF))
  let st := setFlag st flagN (decide ((temp &&& 0x0080) = 0x0080))
  let s := { s with status := st }
  if s.impMode then
    ({ s with a := temp &&& 0x00FF }, 0)
  else
    (s.write s.addr_abs (temp &&& 0x00FF), 0)

/-- `Cpu::izy`: zero-page post-indexed indirect addressing.  The extra
cycle is returned from `(addr_abs & 0x00FF) != (hi << 8)` — the source
masks with `0x00FF` where its ABX/ABY modes mask with `0xFF00`. -/
def CpuState.izy (s : CpuState) : CpuState × Nat :=
  let t := s.read s.pc
  let s := { s with pc := u16 (s.pc + 1) }
  let lo := s.read (t &&& 0x00FF)
  let hi := s.read (u16 (t + 1) &&& 0x00FF)
  let s := { s with addr_abs := u16 (hi <<< 8) ||| lo }
  let s := { s with addr_abs := u16 (s.addr_abs + s.y) }
  if (s.addr_abs &&& 0x00FF) ≠ u16 (hi <<< 8) then (s, 1) else (s, 0)

/-! ## Concrete CPU states used to exercise the claims -/

/-- State for C1: I clear, IRQ vector 0xFFFE/0xFFFF holds 0x34/0x12. -/
def c1State : CpuState :=
  { a := 0, x := 0, y := 0, stkp := 0xFD, pc := 0xABCD, status := 0x20,
    fetched := 0, addr_abs := 0, addr_rel := 0, cycles := 0,
    impMode := false,
    mem := fun a => if a = 0xFFFE then 0x34 else if a = 0xFFFF then 0x12 else 0 }

/-- State for C2: A=0x10, operand 0x0F, carry in set, so the 16-bit
temporary 0x10 + (0x0F ^ 0xFF) + 1 = 0x101 exceeds 0xFF. -/
def c2State : CpuState :=
  { a := 0x10, x := 0, y := 0, stkp := 0xFD, pc := 0, status := flagC,
    fetched := 0x0F, addr_abs := 0, addr_rel := 0, cycles := 0,
    impMode := true, mem := fun _ => 0 }

/-- State for C3: accumulator ROR of 0x00 with carry clear, so the
rotated result is 0x00. -/
def c3State : CpuState :=
  { a := 0, x := 0, y := 0, stkp := 0xFD, pc := 0, status := 0,
    fetched := 0x00, addr_abs := 0, addr_rel := 0, cycles := 0,
    impMode := true, mem := fun _ => 0 }

/-- State for C4: zero-page pointer 0x10 holds base 0x0080, Y=0x80, so
0x0080 + 0x80 = 0x0100 crosses into a new page. -/
def c4State : CpuState :=
  { a := 0, x := 0, y := 0x80, stkp := 0xFD, pc := 0, status := 0,
    fetched := 0, addr_abs := 0, addr_rel := 0, cycles := 0,
    impMode := false,
    mem := fun a => if a = 0 then 0x10 else if a = 0x10 then 0x80 else 0 }

end NesEmu

namespace NesEmu

/-- C1: with I clear the IRQ entry must load PC with the little-endian
word at 0xFFFE/0xFFFF (here 0x1234).  The code instead computes
`lo | (hi >> 8)` and ends at PC = 0x0034, though it does push both PC
bytes and the status with B=0, U=1, sets I, and sets `cycles = 7`. -/
theorem irq_loses_pc_high_byte :
    (c1State.mem 0xFFFE) + 256 * (c1State.mem 0xFFFF) = 0x1234 ∧
    (CpuState.irq c1State).pc = 0x0034 ∧
    (CpuState.irq c1State).pc ≠ 0x1234 ∧
    (CpuState.irq c1State).cycles = 7 ∧
    getFlag (CpuState.irq c1State) flagI = 1 ∧
    (CpuState.irq c1State).mem 0x01FD = 0xAB ∧
    (CpuState.irq c1State).mem 0x01FC = 0xCD ∧
    (CpuState.irq c1State).mem 0x01FB = 0x24 := by
  refine ⟨by decide, ?_, ?_, ?_, ?_, ?_, ?_, ?_⟩ <;> decide

/-- Parity of a bitwise-or with an even mask. -/
theorem or_mod_two (st f : Nat) (hf : f % 2 = 0) : (st ||| f) % 2 = st % 2 := by
  rw [← Nat.and_one_is_mod (st ||| f), Nat.and_distrib_right,
    Nat.and_one_is_mod st, Nat.and_one_is_mod f, hf, Nat.or_zero]

/-- Parity of a bitwise-and with an odd mask. -/
theorem and_mod_two (st m : Nat) (hm : m % 2 = 1) : (st &&& m) % 2 = st % 2 := by
  rw [← Nat.and_one_is_mod (st &&& m), Nat.and_assoc, Nat.and_one_is_mod m, hm,
    Nat.and_one_is_mod st]

/-- Parity of a bitwise-and with an even mask. -/
theorem and_mod_two_zero (st m : Nat) (hm : m % 2 = 0) : (st &&& m) % 2 = 0 := by
  rw [← Nat.and_one_is_mod (st &&& m), Nat.and_assoc, Nat.and_one_is_mod m, hm,
    Nat.and_zero]

/-- `set_flag` with an even mask whose 8-bit complement is odd leaves
bit 0 (the carry bit) alone. -/
theorem setFlag_mod_two (st f : Nat) (b : Bool) (hf : f % 2 = 0)
    (hm : (0xFF ^^^ f) % 2 = 1) : setFlag st f b % 2 = st % 2 := by
  cases b with
  | false => simpa [setFlag] using and_mod_two st (0xFF ^^^ f) hm
  | true => simpa [setFlag] using or_mod_two st f hf

/-- The Z/N/V flag updates after clearing C keep the carry bit clear. -/
theorem statusChain_mod_two (st : Nat) (b1 b2 b3 : Bool) :
    setFlag (setFlag (setFlag (setFlag st flagC false) flagZ b1) flagN b2)
      flagV b3 % 2 = 0 := by
  rw [setFlag_mod_two _ flagV b3 (by decide) (by decide),
      setFlag_mod_two _ flagN b2 (by decide) (by decide),
      setFlag_mod_two _ flagZ b1 (by decide) (by decide)]
  simpa [setFlag] using and_mod_two_zero st (0xFF ^^^ flagC) (by decide)

/-- A status byte with even parity has the carry flag cleared. -/
theorem carry_bit_of_mod_two (st : Nat) (h : st % 2 = 0) :
    (if st &&& flagC > 0 then (1 : Nat) else 0) = 0 := by
  have h1 : st &&& flagC = 0 := by
    show st &&& 1 = 0
    rw [Nat.and_one_is_mod, h]
  simp [h1]

/-- C2: the SBC carry condition `(temp & 0xFF00) == 0xFF00` is
unsatisfiable for `temp ≤ 0x1FF`, so SBC always clears carry — even
when the 16-bit temporary exceeds 0xFF, where the claim requires the
carry to be set. -/
theorem sbc_never_sets_carry (s : CpuState) (ha : s.a < 256)
    (hf : s.fetched < 256) : getFlag (s.sbc).1 flagC = 0 := by
  have hfa : (CpuState.fetch s).a = s.a := by
    unfold CpuState.fetch; split <;> rfl
  have hff : (CpuState.fetch s).fetched < 256 := by
    unfold CpuState.fetch
    split
    · exact hf
    · simp only [CpuState.read, u8]; omega
  have hval : (CpuState.fetch s).fetched ^^^ 0x00FF < 256 := by
    have h2 : (0x00FF : Nat) < 2 ^ 8 := by norm_num
    have h1 : (CpuState.fetch s).fetched < 2 ^ 8 := by simpa using hff
    simpa using Nat.xor_lt_two_pow h1 h2
  have hcle : getFlag (CpuState.fetch s) flagC ≤ 1 := by
    unfold getFlag; split <;> simp
  have htemp : u16 ((CpuState.fetch s).a + ((CpuState.fetch s).fetched ^^^ 0x00FF)
      + getFlag (CpuState.fetch s) flagC) ≤ 0x1FF :=
    le_trans (Nat.mod_le _ _) (by rw [hfa]; omega)
  have hand : ¬ (u16 ((CpuState.fetch s).a + ((CpuState.fetch s).fetched ^^^ 0x00FF)
      + getFlag (CpuState.fetch s) flagC) &&& 0xFF00 = 0xFF00) := by
    intro h
    have hle : u16 ((CpuState.fetch s).a + ((CpuState.fetch s).fetched ^^^ 0x00FF)
        + getFlag (CpuState.fetch s) flagC) &&& 0xFF00
        ≤ u16 ((CpuState.fetch s).a + ((CpuState.fetch s).fetched ^^^ 0x00FF)
        + getFlag (CpuState.fetch s) flagC) := Nat.and_le_left
    omega
  simp only [CpuState.sbc]
  rw [decide_eq_false hand]
  simp only [getFlag]
  exact carry_bit_of_mod_two _ (statusChain_mod_two _ _ _ _)

/-- Witness for C2 at A=0x10, operand=0x0F, carry-in=1: the temporary
is 0x101 > 0xFF, yet the flag comes back 0. -/
theorem sbc_never_sets_carry_witness :
    (u16 (c2State.a + (c2State.fetched ^^^ 0x00FF) + 1) > 0xFF) ∧
    getFlag (c2State.sbc).1 flagC = 0 :=
  ⟨by decide, sbc_never_sets_carry c2State (by decide) (by decide)⟩

/-- C3: rotating 0x00 right with carry clear yields 0x00, so the claim
requires Z to be set; the code tests `(temp & 0xFF) == 0xFF` and leaves
Z clear. -/
theorem ror_zero_flag_wrong :
    ((c3State.ror).1).a = 0 ∧ getFlag (c3State.ror).1 flagZ = 0 := by
  constructor <;> decide

/-- C4: with base 0x0080 and Y = 0x80 the effective address is 0x0100:
the high byte changed (0x00 → 0x01), so the claim requires penalty 1,
but the `0x00FF`-masked comparison returns 0. -/
theorem izy_page_cross_not_charged :
    ((c4State.izy).1.addr_abs = 0x0100) ∧
    ((c4State.izy).1.addr_abs &&& 0xFF00 ≠ 0x0000) ∧
    (c4State.izy).2 = 0 := by
  refine ⟨by decide, by decide, by decide⟩

/-! ## Cartridge and mappers (src/cartridge.rs, src/mapper_000.rs)

The mapper behind `Rc<RefCell<dyn RW>>` is modelled by the address-map
functions the cartridge calls on it; `none` stands for the trait method
returning `false` (address not handled).  PRG/CHR memories are `Vec<u8>`,
modelled as `List Nat`; an out-of-bounds `Vec` index panics, modelled by
the whole operation returning `none`. -/

inductive Mirror where
  | Hardware
  | Vertical
  | Horizontal
  | OneScreenLo
  | OneScreenHi
deriving DecidableEq

structure Cartridge where
  prg_memory : List Nat
  chr_memory : List Nat
  prg_banks : Nat
  chr_banks : Nat
  /-- The value `Cartridge::mirror()` resolves to (mapper override, or
  the header's hardware mirroring when the mapper says `Hardware`). -/
  mirror : Mirror
  /-- `RW::cpu_map_read`: maps a CPU address (and may rewrite the data
  byte, as MMC3 static-RAM reads do) or rejects it. -/
  cpuMapRead : Nat → Nat → Option (Nat × Nat)
  /-- `RW::ppu_map_read`. -/
  ppuMapRead : Nat → Option Nat
  /-- `RW::ppu_map_write`. -/
  ppuMapWrite : Nat → Option Nat

/-- `Mapper000::cpu_map_read`: NROM maps 0x8000 and above through
`addr & (prg_banks > 1 ? 0x7FFF : 0x3FFF)`, leaving the data byte. -/
def mapper000CpuMapRead (prg_banks addr data : Nat) : Option (Nat × Nat) :=
  if 0x8000 ≤ addr then
    some (addr &&& (if 1 < prg_banks then 0x7FFF else 0x3FFF), data)
  else none

/-- `Mapper000::ppu_map_read`: identity on the pattern-table range. -/
def mapper000PpuMapRead (addr : Nat) : Option Nat :=
  if addr ≤ 0x1FFF then some addr else none

/-- `Mapper000::ppu_map_write`: CHR writes only reach CHR-RAM carts. -/
def mapper000PpuMapWrite (chr_banks addr : Nat) : Option Nat :=
  if addr ≤ 0x1FFF ∧ chr_banks = 0 then some addr else none

/-- An NROM cartridge (`mapper_id == 0`). -/
def nromCart (prg chr : List Nat) (prg_banks chr_banks : Nat) (m : Mirror) :
    Cartridge :=
  { prg_memory := prg
    chr_memory := chr
    prg_banks := prg_banks
    chr_banks := chr_banks
    mirror := m
    cpuMapRead := mapper000CpuMapRead prg_banks
    ppuMapRead := mapper000PpuMapRead
    ppuMapWrite := mapper000PpuMapWrite chr_banks }

/-- `Cartridge::cpu_read`: route through the mapper; the sentinel
0xFFFFFFFF means the mapper already produced the byte. -/
def Cartridge.cpu_read (c : Cartridge) (addr data : Nat) : Option (Bool × Nat) :=
  match c.cpuMapRead addr data with
  | some (mapped, d) =>
      if mapped = 0xFFFFFFFF then some (true, d)
      else
        match c.prg_memory.get? mapped with
        | some b => some (true, b)
        | none => none
  | none => some (false, data)

/-- `Cartridge::ppu_read`: route through the mapper, with an explicit
bounds check on the CHR offset before indexing. -/
def Cartridge.ppu_read (c : Cartridge) (addr data : Nat) : Option (Bool × Nat) :=
  match c.ppuMapRead addr with
  | some mapped =>
      if c.chr_memory.length ≤ mapped then some (false, data)
      else
        match c.chr_memory.get? mapped with
        | some b => some (true, b)
        | none => none
  | none => some (false, data)

/-- `Cartridge::ppu_write`: no bounds check in the source, so an
out-of-range CHR offset panics (`none`). -/
def Cartridge.ppu_write (c : Cartridge) (addr data : Nat) :
    Option (Bool × Cartridge) :=
  match c.ppuMapWrite addr with
  | some mapped =>
      if mapped < c.chr_memory.length then
        some (true, { c with chr_memory := c.chr_memory.set mapped data })
      else none
  | none => some (false, c)

/-- C8: on an NROM cartridge with a single 16 KiB PRG bank, CPU reads at
0x8000+k and 0xC000+k both resolve to PRG offset k and return the very
same byte. -/
theorem nrom_single_bank_mirrored_reads (prg chr : List Nat) (cb : Nat)
    (m : Mirror) (k d1 d2 : Nat) (hk : k < 0x4000)
    (hlen : prg.length = 16384) :
    (nromCart prg chr 1 cb m).cpu_read (0x8000 + k) d1
      = (nromCart prg chr 1 cb m).cpu_read (0xC000 + k) d2 ∧
    ∃ b, (nromCart prg chr 1 cb m).cpu_read (0x8000 + k) d1 = some (true, b) := by
  have hmask : (0x3FFF : Nat) = 2 ^ 14 - 1 := by norm_num
  have h1 : (0x8000 + k) &&& 0x3FFF = k := by
    rw [hmask, Nat.and_pow_two_sub_one_eq_mod]
    omega
  have h2 : (0xC000 + k) &&& 0x3FFF = k := by
    rw [hmask, Nat.and_pow_two_sub_one_eq_mod]
    omega
  have hget : prg.get? k = some (prg.get ⟨k, by omega⟩) := List.get?_eq_get (by omega)
  have hr1 : (nromCart prg chr 1 cb m).cpu_read (0x8000 + k) d1
      = some (true, prg.get ⟨k, by omega⟩) := by
    unfold Cartridge.cpu_read nromCart mapper000CpuMapRead
    simp only [if_pos (by omega : (0x8000 : Nat) ≤ 0x8000 + k), if_neg (by norm_num : ¬ (1:Nat) < 1)]
    simp only [h1, if_neg (by omega : ¬ k = 0xFFFFFFFF)]
    rw [hget]
  have hr2 : (nromCart prg chr 1 cb m).cpu_read (0xC000 + k) d2
      = some (true, prg.get ⟨k, by omega⟩) := by
    unfold Cartridge.cpu_read nromCart mapper000CpuMapRead
    simp only [if_pos (by omega : (0x8000 : Nat) ≤ 0xC000 + k), if_neg (by norm_num : ¬ (1:Nat) < 1)]
    simp only [h2, if_neg (by omega : ¬ k = 0xFFFFFFFF)]
    rw [hget]
  exact ⟨hr1.trans hr2.symm, _, hr1⟩

/-- Witness for C8 at k = 0 on an all-zero 16 KiB PRG image. -/
theorem nrom_single_bank_mirrored_reads_witness :
    (nromCart (List.replicate 16384 7) [] 1 0 Mirror.Horizontal).cpu_read
        (0x8000 + 0) 0
      = (nromCart (List.replicate 16384 7) [] 1 0 Mirror.Horizontal).cpu_read
        (0xC000 + 0) 0 ∧
    ∃ b, (nromCart (List.replicate 16384 7) [] 1 0 Mirror.Horizontal).cpu_read
        (0x8000 + 0) 0 = some (true, b) :=
  nrom_single_bank_mirrored_reads (List.replicate 16384 7) [] 0
    Mirror.Horizontal 0 0 0 (by norm_num) (List.length_replicate 16384 7)

/-- C10: `Cartridge::ppu_read` never panics: the bounds check in front
of the CHR index makes the read total for every mapper result, address
and cartridge state, and an out-of-range offset reports `false` with
the data byte untouched. -/
theorem cartridge_ppu_read_total (c : Cartridge) (addr data : Nat) :
    (c.ppu_read addr data).isSome = true := by
  unfold Cartridge.ppu_read
  rcases h : c.ppuMapRead addr with _ | mapped
  · simp [h]
  · simp only [h]
    by_cases hle : c.chr_memory.length ≤ mapped
    · simp [hle]
    · have hlt : mapped < c.chr_memory.length := Nat.lt_of_not_le hle
      simp only [if_neg hle, List.get?_eq_get hlt, Option.isSome_some]

/-- The guard in C10 in action: when the mapper offset is out of CHR
range the read returns `false` and leaves the data byte unchanged. -/
theorem cartridge_ppu_read_out_of_range (c : Cartridge) (addr data mapped : Nat)
    (hm : c.ppuMapRead addr = some mapped)
    (hle : c.chr_memory.length ≤ mapped) :
    c.ppu_read addr data = some (false, data) := by
  unfold Cartridge.ppu_read
  rw [hm]
  simp [hle]

/-! ## PPU (src/ppu.rs)

The nametables, palette, pattern tables and OAM are modelled as total
functions (the source's fixed-size arrays are only ever indexed with
masked offsets).  The `bitfield!` accessors of `Status`, `Mask`,
`PpuControl` and `LoopyRegister` become the mask/shift operations the
crate generates: a setter stores `(value & field_mask) << offset` into
the backing word, a getter is `(word >> offset) & field_mask`.
`todo!()` arms (one-screen and unresolved mirroring in `ppu_read` /
`ppu_write`) and out-of-bounds `Vec` indexing become `none`. -/

structure OamEntry where
  y : Nat
  id : Nat
  /-- The source's `attribute` byte (a reserved word in Lean). -/
  attr : Nat
  x : Nat

/-- Pointwise update of a function-modelled byte array. -/
def upd1 (f : Nat → Nat) (i v : Nat) : Nat → Nat :=
  fun a => if a = i then v else f a

/-- Pointwise update of a two-dimensional table. -/
def upd2 (f : Nat → Nat → Nat) (i j v : Nat) : Nat → Nat → Nat :=
  fun a b => if a = i ∧ b = j then v else f a b

/-- Pointwise update of an OAM array. -/
def updOam (f : Nat → OamEntry) (i : Nat) (e : OamEntry) : Nat → OamEntry :=
  fun a => if a = i then e else f a

structure Ppu where
  tbl_name : Nat → Nat → Nat
  tbl_palette : Nat → Nat
  tbl_pattern : Nat → Nat → Nat
  frame_complete : Bool
  scanline : Int
  cycle : Int
  status : Nat
  mask : Nat
  control : Nat
  address_latch : Nat
  data_buffer : Nat
  nmi : Bool
  vram_addr : Nat
  tram_addr : Nat
  fine_x : Nat
  bg_next_tile_id : Nat
  bg_next_tile_attrib : Nat
  bg_next_tile_lsb : Nat
  bg_next_tile_msb : Nat
  bg_shifter_pattern_lo : Nat
  bg_shifter_pattern_hi : Nat
  bg_shifter_attrib_lo : Nat
  bg_shifter_attrib_hi : Nat
  oam : Nat → OamEntry
  oam_addr : Nat
  sprite_scanline : Nat → OamEntry
  sprite_count : Nat
  sprite_shifter_pattern_lo : Nat → Nat
  sprite_shifter_pattern_hi : Nat → Nat
  sprite_zero_hit_possible : Bool
  sprite_zero_being_rendered : Bool
  scanline_trigger : Bool
  odd_frame : Bool

/-! Bitfield accessors. -/

def Status.sprite_overflow (st : Nat) : Bool := ((st >>> 5) &&& 1) != 0
def Status.vertical_blank (st : Nat) : Bool := ((st >>> 7) &&& 1) != 0
def Status.set_sprite_overflow (st : Nat) (b : Bool) : Nat :=
  (st &&& (0xFF ^^^ 0x20)) ||| (if b then 0x20 else 0)
def Status.set_vertical_blank (st : Nat) (b : Bool) : Nat :=
  (st &&& (0xFF ^^^ 0x80)) ||| (if b then 0x80 else 0)

def Mask.grayscale (m : Nat) : Bool := ((m >>> 0) &&& 1) != 0

def Control.nametable_x (c : Nat) : Bool := ((c >>> 0) &&& 1) != 0
def Control.nametable_y (c : Nat) : Bool := ((c >>> 1) &&& 1) != 0
def Control.increment_mode (c : Nat) : Bool := ((c >>> 2) &&& 1) != 0
def Control.sprite_size (c : Nat) : Bool := ((c >>> 5) &&& 1) != 0

def Loopy.set_coarse_x (t v : Nat) : Nat :=
  (t &&& (0xFFFF ^^^ 0x001F)) ||| (v &&& 0x1F)
def Loopy.set_coarse_y (t v : Nat) : Nat :=
  (t &&& (0xFFFF ^^^ 0x03E0)) ||| ((v &&& 0x1F) <<< 5)
def Loopy.set_nametable_x (t : Nat) (b : Bool) : Nat :=
  (t &&& (0xFFFF ^^^ 0x0400)) ||| (if b then 0x0400 else 0)
def Loopy.set_nametable_y (t : Nat) (b : Bool) : Nat :=
  (t &&& (0xFFFF ^^^ 0x0800)) ||| (if b then 0x0800 else 0)
def Loopy.set_fine_y (t v : Nat) : Nat :=
  (t &&& (0xFFFF ^^^ 0x7000)) ||| ((v &&& 0x07) <<< 12)

/-- `Ppu::ppu_read` (the Rust `match` on the mirror mode is an
if-cascade over the mirrored nametable ranges). -/
def Ppu.ppu_read (p : Ppu) (cart : Cartridge) (addr0 : Nat) : Option Nat :=
  let addr := addr0 &&& 0x3FFF
  match cart.ppu_read addr 0x00 with
  | none => none
  | some (true, d) => some d
  | some (false, d0) =>
    if addr ≤ 0x1FFF then
      some (p.tbl_pattern ((addr &&& 0x1000) >>> 12) (addr &&& 0x0FFF))
    else if 0x2000 ≤ addr ∧ addr ≤ 0x3EFF then
      let a := addr &&& 0x0FFF
      match cart.mirror with
      | Mirror.Vertical =>
        let d := if a ≤ 0x03FF then p.tbl_name 0 (a &&& 0x03FF) else d0
        let d := if 0x0400 ≤ a ∧ a ≤ 0x07FF then p.tbl_name 1 (a &&& 0x03FF) else d
        let d := if 0x0800 ≤ a ∧ a ≤ 0x0BFF then p.tbl_name 0 (a &&& 0x03FF) else d
        let d := if 0x0C00 ≤ a ∧ a ≤ 0x0FFF then p.tbl_name 1 (a &&& 0x03FF) else d
        some d
      | Mirror.Horizontal =>
        let d := if a ≤ 0x03FF then p.tbl_name 0 (a &&& 0x03FF) else d0
        let d := if 0x0400 ≤ a ∧ a ≤ 0x07FF then p.tbl_name 0 (a &&& 0x03FF) else d
        let d := if 0x0800 ≤ a ∧ a ≤ 0x0BFF then p.tbl_name 1 (a &&& 0x03FF) else d
        let d := if 0x0C00 ≤ a ∧ a ≤ 0x0FFF then p.tbl_name 1 (a &&& 0x03FF) else d
        some d
      | _ => none
    else if 0x3F00 ≤ addr ∧ addr ≤ 0x3FFF then
      let a := addr &&& 0x001F
      let a := if a = 0x0010 ∨ a = 0x0014 ∨ a = 0x0018 ∨ a = 0x001C
               then a &&& 0x000F else a
      some (p.tbl_palette a &&& (if Mask.grayscale p.mask then 0x30 else 0x3F))
    else
      some d0

/-- `Ppu::ppu_write`. -/
def Ppu.ppu_write (p : Ppu) (cart : Cartridge) (addr0 data : Nat) :
    Option (Ppu × Cartridge) :=
  let addr := addr0 &&& 0x3FFF
  match cart.ppu_write addr data with
  | none => none
  | some (true, c') => some (p, c')
  | some (false, _) =>
    if addr ≤ 0x1FFF then
      some ({ p with
        tbl_pattern := upd2 p.tbl_pattern ((addr &&& 0x1000) >>> 12) (addr &&& 0x0FFF) data }, cart)
    else if 0x2000 ≤ addr ∧ addr ≤ 0x3EFF then
      let a := addr &&& 0x0FFF
      match cart.mirror with
      | Mirror.Vertical =>
        let tn := if a ≤ 0x03FF then upd2 p.tbl_name 0 (a &&& 0x03FF) data else p.tbl_name
        let tn := if 0x0400 ≤ a ∧ a ≤ 0x07FF then upd2 tn 1 (a &&& 0x03FF) data else tn
        let tn := if 0x0800 ≤ a ∧ a ≤ 0x0BFF then upd2 tn 0 (a &&& 0x03FF) data else tn
        let tn := if 0x0C00 ≤ a ∧ a ≤ 0x0FFF then upd2 tn 1 (a &&& 0x03FF) data else tn
        some ({ p with tbl_name := tn }, cart)
      | Mirror.Horizontal =>
        let tn := if a ≤ 0x03FF then upd2 p.tbl_name 0 (a &&& 0x03FF) data else p.tbl_name
        let tn := if 0x0400 ≤ a ∧ a ≤ 0x07FF then upd2 tn 0 (a &&& 0x03FF) data else tn
        let tn := if 0x0800 ≤ a ∧ a ≤ 0x0BFF then upd2 tn 1 (a &&& 0x03FF) data else tn
        let tn := if 0x0C00 ≤ a ∧ a ≤ 0x0FFF then upd2 tn 1 (a &&& 0x03FF) data else tn
        some ({ p with tbl_name := tn }, cart)
      | _ => none
    else if 0x3F00 ≤ addr ∧ addr ≤ 0x3FFF then
      let a := addr &&& 0x001F
      let a := if a = 0x0010 ∨ a = 0x0014 ∨ a = 0x0018 ∨ a = 0x001C
               then a &&& 0x000F else a
      some ({ p with tbl_palette := upd1 p.tbl_palette a data }, cart)
    else
      some (p, cart)

/-- `Ppu::cpu_write` (register select already reduced to 0..7 by the
bus mask; the Rust `match addr` is an if-cascade here).  The `data`
argument is a `u8`. -/
def Ppu.cpu_write (p : Ppu) (cart : Cartridge) (addr data0 : Nat) :
    Option (Ppu × Cartridge) :=
  let data := u8 data0
  if addr = 0x0000 then
    let p1 := { p with control := data }
    let p2 := { p1 with
      tram_addr := Loopy.set_nametable_x p1.tram_addr (Control.nametable_x p1.control) }
    let p3 := { p2 with
      tram_addr := Loopy.set_nametable_y p2.tram_addr (Control.nametable_y p2.control) }
    some (p3, cart)
  else if addr = 0x0001 then
    some ({ p with mask := data }, cart)
  else if addr = 0x0002 then
    some (p, cart)
  else if addr = 0x0003 then
    some ({ p with oam_addr := data }, cart)
  else if addr = 0x0004 then
    let i := p.oam_addr / 4
    let e := p.oam i
    let oam' :=
      if p.oam_addr % 4 = 0 then updOam p.oam i { e with y := data }
      else if p.oam_addr % 4 = 1 then updOam p.oam i { e with id := data }
      else if p.oam_addr % 4 = 2 then updOam p.oam i { e with attr := data }
      else if p.oam_addr % 4 = 3 then updOam p.oam i { e with x := data }
      else p.oam
    some ({ p with oam := oam' }, cart)
  else if addr = 0x0005 then
    if p.address_latch = 0 then
      let p1 := { p with fine_x := data &&& 0x07 }
      let p2 := { p1 with tram_addr := Loopy.set_coarse_x p1.tram_addr (data >>> 3) }
      some ({ p2 with address_latch := 1 }, cart)
    else
      let p1 := { p with tram_addr := Loopy.set_fine_y p.tram_addr (data &&& 0x07) }
      let p2 := { p1 with tram_addr := Loopy.set_coarse_y p1.tram_addr (data >>> 3) }
      some ({ p2 with address_latch := 0 }, cart)
  else if addr = 0x0006 then
    if p.address_latch = 0 then
      let p1 := { p with
        tram_addr := ((data &&& 0x3F) <<< 8) ||| (p.tram_addr &&& 0x00FF) }
      some ({ p1 with address_latch := 1 }, cart)
    else
      let p1 := { p with tram_addr := (p.tram_addr &&& 0xFF00) ||| data }
      let p2 := { p1 with vram_addr := p1.tram_addr }
      some ({ p2 with address_latch := 0 }, cart)
  else if addr = 0x0007 then
    match p.ppu_write cart p.vram_addr data with
    | none => none
    | some (p', c') =>
      some ({ p' with
        vram_addr := u16 (p'.vram_addr + (if Control.increment_mode p'.control then 32 else 1)) }, c')
  else
    some (p, cart)

/-- `Ppu::cpu_read`.  In the `read_only` branch the source only fills
the local `data` byte and touches no state at all. -/
def Ppu.cpu_read (p : Ppu) (cart : Cartridge) (addr : Nat) (read_only : Bool) :
    Option (Nat × Ppu) :=
  if read_only then
    let data :=
      if addr = 0x0000 then p.control
      else if addr = 0x0001 then p.mask
      else if addr = 0x0002 then p.status
      else 0
    some (data, p)
  else
    if addr = 0x0002 then
      some ((p.status &&& 0xE0) ||| (p.data_buffer &&& 0x1F),
        { p with
          status := Status.set_vertical_blank p.status false
          address_latch := 0 })
    else if addr = 0x0004 then
      let data :=
        if p.oam_addr % 4 = 0 then (p.oam (p.oam_addr / 4)).y
        else if p.oam_addr % 4 = 1 then (p.oam (p.oam_addr / 4)).id
        else if p.oam_addr % 4 = 2 then (p.oam (p.oam_addr / 4)).attr
        else if p.oam_addr % 4 = 3 then (p.oam (p.oam_addr / 4)).x
        else 0
      some (data, p)
    else if addr = 0x0007 then
      match p.ppu_read cart p.vram_addr with
      | none => none
      | some fresh =>
        let data := p.data_buffer
        let p1 := { p with data_buffer := fresh }
        let data := if 0x3F00 ≤ p1.vram_addr then p1.data_buffer else data
        some (data, { p1 with
          vram_addr := u16 (p1.vram_addr + (if Control.increment_mode p1.control then 32 else 1)) })
    else
      some (0, p)

/-- `Ppu::new`: the powered-up PPU state (screen/palette sprites of the
windowing host omitted). -/
def Ppu.new : Ppu :=
  { tbl_name := fun _ _ => 0
    tbl_palette := fun _ => 0
    tbl_pattern := fun _ _ => 0
    frame_complete := false
    scanline := 0
    cycle := 0
    status := 0
    mask := 0
    control := 0
    address_latch := 0x00
    data_buffer := 0x00
    nmi := false
    vram_addr := 0
    tram_addr := 0
    fine_x := 0x00
    bg_next_tile_id := 0x00
    bg_next_tile_attrib := 0x00
    bg_next_tile_lsb := 0x00
    bg_next_tile_msb := 0x00
    bg_shifter_pattern_lo := 0
    bg_shifter_pattern_hi := 0
    bg_shifter_attrib_lo := 0
    bg_shifter_attrib_hi := 0
    oam := fun _ => ⟨0, 0, 0, 0⟩
    oam_addr := 0x00
    sprite_scanline := fun _ => ⟨0, 0, 0, 0⟩
    sprite_count := 0x00
    sprite_shifter_pattern_lo := fun _ => 0
    sprite_shifter_pattern_hi := fun _ => 0
    sprite_zero_hit_possible := false
    sprite_zero_being_rendered := false
    scanline_trigger := false
    odd_frame := false }

/-- A minimal cartridge to instantiate PPU facts on. -/
def emptyCart : Cartridge := nromCart [] [] 0 0 Mirror.Horizontal

/-- Clearing the vertical-blank bit really leaves it reading 0. -/
theorem vblank_clear (st : Nat) :
    Status.vertical_blank (Status.set_vertical_blank st false) = false := by
  have h2 : (st &&& 127) >>> 7 = 0 := by
    have h1 : st &&& 127 ≤ 127 := Nat.and_le_right
    have e : (2 : Nat) ^ 7 = 128 := by norm_num
    rw [Nat.shiftRight_eq_div_pow, e]
    exact Nat.div_eq_of_lt (by omega)
  simp [Status.vertical_blank, Status.set_vertical_blank, h2]

/-- C7: a live $2002 read returns `(status & 0xE0) | (data_buffer &
0x1F)`, and the only state change is a cleared vertical-blank bit and a
reset address latch. -/
theorem status_read_clears_vblank_and_latch (p : Ppu) (c : Cartridge) :
    p.cpu_read c 0x0002 false =
      some ((p.status &&& 0xE0) ||| (p.data_buffer &&& 0x1F),
        { p with
          status := Status.set_vertical_blank p.status false
          address_latch := 0 }) ∧
    Status.vertical_blank (Status.set_vertical_blank p.status false) = false :=
  ⟨rfl, vblank_clear p.status⟩

/-- C9: a read-only read of any register 0..7 only produces a data byte
and returns the PPU state exactly as it was. -/
theorem read_only_reads_change_nothing (p : Ppu) (c : Cartridge) (addr : Nat)
    (_h : addr < 8) : ∃ d, p.cpu_read c addr true = some (d, p) :=
  ⟨_, rfl⟩

/-- Witness for C9 at register $2002 on the power-up state. -/
theorem read_only_reads_change_nothing_witness :
    (2 : Nat) < 8 ∧ ∃ d, Ppu.new.cpu_read emptyCart 2 true = some (d, Ppu.new) :=
  ⟨by decide, read_only_reads_change_nothing Ppu.new emptyCart 2 (by decide)⟩

/-! ## C6: sprite evaluation at cycle 257 of a visible scanline

The `if self.cycle == 257 && self.scanline >= 0` block of `Ppu::clock`
(src/ppu.rs): secondary OAM and the sprite shifters are reset, the 64
OAM entries are scanned, and `sprite_overflow` is set from the final
`sprite_count >= 8`. -/

/-- The range test of the evaluation loop: `diff = scanline - oam[i].y`
(`i16` arithmetic, modelled on ℤ — no wrap is possible for in-spec
scanline and y values) lies in `[0, sprite_size)`. -/
def spriteInRange (p : Ppu) (i : Nat) : Bool :=
  let diff : Int := p.scanline - ((p.oam i).y : Int)
  let ssize : Int := if Control.sprite_size p.control then 16 else 8
  decide (0 ≤ diff ∧ diff < ssize)

/-- One iteration of the evaluation loop body (the guarded copy into
secondary OAM plus the `sprite_count` bump). -/
def spriteEvalStep (p : Ppu) (e : Nat) : Ppu :=
  if spriteInRange p e ∧ p.sprite_count < 8 then
    let p1 :=
      if p.sprite_count < 8 then
        let p0 := if e = 0 then { p with sprite_zero_hit_possible := true } else p
        { p0 with
          sprite_scanline := updOam p0.sprite_scanline p0.sprite_count (p0.oam e) }
      else p
    { p1 with sprite_count := u8 (p1.sprite_count + 1) }
  else p

/-- The `while oam_entry < 64 && sprite_count < 9` loop.  `fuel` is
`64 - oam_entry`, which makes the recursion structural; the loop ends
exactly when the `while` condition fails, so the formulations agree. -/
def spriteEvalLoop (p : Ppu) (e : Nat) : Nat → Ppu
  | 0 => p
  | fuel + 1 =>
    if e < 64 ∧ p.sprite_count < 9 then
      spriteEvalLoop (spriteEvalStep p e) (e + 1) fuel
    else p

/-- The resets at the top of the block: secondary OAM to 0xFF entries,
`sprite_count` and the per-sprite shifters to 0, the sprite-zero flag
cleared. -/
def spriteEvalReset (p : Ppu) : Ppu :=
  { p with
    sprite_scanline := fun _ => ⟨0xFF, 0xFF, 0xFF, 0xFF⟩
    sprite_count := 0
    sprite_shifter_pattern_lo := fun _ => 0
    sprite_shifter_pattern_hi := fun _ => 0
    sprite_zero_hit_possible := false }

/-- The whole cycle-257 sprite-evaluation block. -/
def spriteEvaluation (p : Ppu) : Ppu :=
  let p1 := spriteEvalReset p
  let p2 := spriteEvalLoop p1 0 64
  { p2 with status := Status.set_sprite_overflow p2.status (decide (p2.sprite_count ≥ 8)) }

/-- How many OAM entries in `[e, e+fuel)` intersect the scanline. -/
def countInRangeFrom (p : Ppu) (e : Nat) : Nat → Nat
  | 0 => 0
  | fuel + 1 => (if spriteInRange p e then 1 else 0) + countInRangeFrom p (e + 1) fuel

/-- How many of the 64 OAM entries intersect the scanline. -/
def inRangeCount (p : Ppu) : Nat := countInRangeFrom p 0 64

instance : Inhabited OamEntry := ⟨⟨0, 0, 0, 0⟩⟩

/-- The in-range OAM entries in `[e, e+fuel)`, in OAM order. -/
def inRangeEntriesFrom (p : Ppu) (e : Nat) : Nat → List OamEntry
  | 0 => []
  | fuel + 1 =>
    (if spriteInRange p e then [p.oam e] else []) ++ inRangeEntriesFrom p (e + 1) fuel

/-! Further bitfield accessors used by `Ppu::clock`. -/

def Status.set_sprite_zero_hit (st : Nat) (b : Bool) : Nat :=
  (st &&& (0xFF ^^^ 0x40)) ||| (if b then 0x40 else 0)

def Mask.render_background_left (m : Nat) : Bool := ((m >>> 1) &&& 1) != 0
def Mask.render_sprites_left (m : Nat) : Bool := ((m >>> 2) &&& 1) != 0
def Mask.render_background (m : Nat) : Bool := ((m >>> 3) &&& 1) != 0
def Mask.render_sprites (m : Nat) : Bool := ((m >>> 4) &&& 1) != 0

def Control.pattern_sprite (c : Nat) : Bool := ((c >>> 3) &&& 1) != 0
def Control.pattern_background (c : Nat) : Bool := ((c >>> 4) &&& 1) != 0
def Control.enable_nmi (c : Nat) : Bool := ((c >>> 7) &&& 1) != 0

def Loopy.coarse_x (t : Nat) : Nat := (t >>> 0) &&& 0x1F
def Loopy.coarse_y (t : Nat) : Nat := (t >>> 5) &&& 0x1F
def Loopy.nametable_x (t : Nat) : Bool := ((t >>> 10) &&& 1) != 0
def Loopy.nametable_y (t : Nat) : Bool := ((t >>> 11) &&& 1) != 0
def Loopy.fine_y (t : Nat) : Nat := (t >>> 12) &&& 0x07

/-- Reinterpret an `i16` value as `u16` (an `as u16` cast). -/
def i16u16 (z : Int) : Nat := (z % 65536).toNat

/-- `u16` wrapping subtraction. -/
def u16sub (a b : Nat) : Nat := (a % 65536 + (65536 - b % 65536)) % 65536

/-! ## `Ppu::clock` (src/ppu.rs)

The per-dot state machine, split into its source statements.  Omitted
with the drawing host: the `set_pixel` store into `sprite_screen` (the
pixel/palette pair it consumes is noted where the source computes it).
`RW::scanline` at (cycle 260, scanline < 240) is a no-op as in
`Mapper000`; the modelled mapper carries no mutable counter state. -/

/-- `Ppu::increment_scroll_x`. -/
def Ppu.increment_scroll_x (p : Ppu) : Ppu :=
  if Mask.render_background p.mask || Mask.render_sprites p.mask then
    if Loopy.coarse_x p.vram_addr = 31 then
      let p1 := { p with vram_addr := Loopy.set_coarse_x p.vram_addr 0 }
      { p1 with
        vram_addr := Loopy.set_nametable_x p1.vram_addr (! Loopy.nametable_x p1.vram_addr) }
    else
      { p with
        vram_addr := Loopy.set_coarse_x p.vram_addr (u16 (Loopy.coarse_x p.vram_addr + 1)) }
  else p

/-- `Ppu::increment_scroll_y`. -/
def Ppu.increment_scroll_y (p : Ppu) : Ppu :=
  if Mask.render_background p.mask || Mask.render_sprites p.mask then
    if Loopy.fine_y p.vram_addr < 7 then
      { p with
        vram_addr := Loopy.set_fine_y p.vram_addr (u16 (Loopy.fine_y p.vram_addr + 1)) }
    else
      let p1 := { p with vram_addr := Loopy.set_fine_y p.vram_addr 0 }
      if Loopy.coarse_y p1.vram_addr = 29 then
        let p2 := { p1 with vram_addr := Loopy.set_coarse_y p1.vram_addr 0 }
        { p2 with
          vram_addr := Loopy.set_nametable_y p2.vram_addr (! Loopy.nametable_y p2.vram_addr) }
      else if Loopy.coarse_y p1.vram_addr = 31 then
        { p1 with vram_addr := Loopy.set_coarse_y p1.vram_addr 0 }
      else
        { p1 with
          vram_addr := Loopy.set_coarse_y p1.vram_addr (u16 (Loopy.coarse_y p1.vram_addr + 1)) }
  else p

/-- `Ppu::transfer_address_x`. -/
def Ppu.transfer_address_x (p : Ppu) : Ppu :=
  if Mask.render_background p.mask || Mask.render_sprites p.mask then
    let p1 := { p with
      vram_addr := Loopy.set_nametable_x p.vram_addr (Loopy.nametable_x p.tram_addr) }
    { p1 with vram_addr := Loopy.set_coarse_x p1.vram_addr (Loopy.coarse_x p1.tram_addr) }
  else p

/-- `Ppu::transfer_address_y`. -/
def Ppu.transfer_address_y (p : Ppu) : Ppu :=
  if Mask.render_background p.mask || Mask.render_sprites p.mask then
    let p1 := { p with
      vram_addr := Loopy.set_fine_y p.vram_addr (Loopy.fine_y p.tram_addr) }
    let p2 := { p1 with
      vram_addr := Loopy.set_nametable_y p1.vram_addr (Loopy.nametable_y p1.tram_addr) }
    { p2 with vram_addr := Loopy.set_coarse_y p2.vram_addr (Loopy.coarse_y p2.tram_addr) }
  else p

/-- `Ppu::load_background_shifters`. -/
def Ppu.load_background_shifters (p : Ppu) : Ppu :=
  { p with
    bg_shifter_pattern_lo := (p.bg_shifter_pattern_lo &&& 0xFF00) ||| p.bg_next_tile_lsb
    bg_shifter_pattern_hi := (p.bg_shifter_pattern_hi &&& 0xFF00) ||| p.bg_next_tile_msb
    bg_shifter_attrib_lo := (p.bg_shifter_attrib_lo &&& 0xFF00) |||
      (if p.bg_next_tile_attrib &&& 0b01 > 0 then 0xFF else 0x00)
    bg_shifter_attrib_hi := (p.bg_shifter_attrib_hi &&& 0xFF00) |||
      (if p.bg_next_tile_attrib &&& 0b10 > 0 then 0xFF else 0x00) }

/-- The sprite half of `Ppu::update_shifters`: the per-sprite x
countdown and pattern shift, for `i` in `[0, sprite_count)`. -/
def updateSpriteShifters (p : Ppu) : Nat → Nat → Ppu
  | _, 0 => p
  | i, fuel + 1 =>
    let p' :=
      if (p.sprite_scanline i).x > 0 then
        let e := p.sprite_scanline i
        { p with sprite_scanline := updOam p.sprite_scanline i { e with x := u8 (e.x + 255) } }
      else
        let p1 := { p with
          sprite_shifter_pattern_lo :=
            upd1 p.sprite_shifter_pattern_lo i (u8 (p.sprite_shifter_pattern_lo i <<< 1)) }
        { p1 with
          sprite_shifter_pattern_hi :=
            upd1 p1.sprite_shifter_pattern_hi i (u8 (p1.sprite_shifter_pattern_hi i <<< 1)) }
    updateSpriteShifters p' (i + 1) fuel

/-- `Ppu::update_shifters`. -/
def Ppu.update_shifters (p : Ppu) : Ppu :=
  let p1 :=
    if Mask.render_background p.mask then
      { p with
        bg_shifter_pattern_lo := u16 (p.bg_shifter_pattern_lo <<< 1)
        bg_shifter_pattern_hi := u16 (p.bg_shifter_pattern_hi <<< 1)
        bg_shifter_attrib_lo := u16 (p.bg_shifter_attrib_lo <<< 1)
        bg_shifter_attrib_hi := u16 (p.bg_shifter_attrib_hi <<< 1) }
    else p
  if Mask.render_sprites p1.mask ∧ 1 ≤ p1.cycle ∧ p1.cycle < 258 then
    updateSpriteShifters p1 0 p1.sprite_count
  else p1

/-- The background tile pipeline of `Ppu::clock` (cycles 2-257 and
321-337): shift, then act on `(cycle - 1) % 8`. -/
def Ppu.bgFetch (p0 : Ppu) (cart : Cartridge) : Option Ppu :=
  if (2 ≤ p0.cycle ∧ p0.cycle < 258) ∨ (321 ≤ p0.cycle ∧ p0.cycle < 338) then
    let p := p0.update_shifters
    if (p.cycle - 1) % 8 = 0 then
      let p := p.load_background_shifters
      match p.ppu_read cart (0x2000 ||| (p.vram_addr &&& 0x0FFF)) with
      | none => none
      | some d => some { p with bg_next_tile_id := d }
    else if (p.cycle - 1) % 8 = 2 then
      match p.ppu_read cart
        (0x23C0 ||| ((if Loopy.nametable_y p.vram_addr then 1 else 0) <<< 11)
          ||| ((if Loopy.nametable_x p.vram_addr then 1 else 0) <<< 10)
          ||| ((Loopy.coarse_y p.vram_addr >>> 2) <<< 3)
          ||| (Loopy.coarse_x p.vram_addr >>> 2)) with
      | none => none
      | some d =>
        let a := d
        let a := if Loopy.coarse_y p.vram_addr &&& 0x02 > 0 then a >>> 4 else a
        let a := if Loopy.coarse_x p.vram_addr &&& 0x02 > 0 then a >>> 2 else a
        some { p with bg_next_tile_attrib := a &&& 0x03 }
    else if (p.cycle - 1) % 8 = 4 then
      match p.ppu_read cart
        (u16 (((if Control.pattern_background p.control then 1 else 0) <<< 12)
          + (p.bg_next_tile_id <<< 4) + Loopy.fine_y p.vram_addr)) with
      | none => none
      | some d => some { p with bg_next_tile_lsb := d }
    else if (p.cycle - 1) % 8 = 6 then
      match p.ppu_read cart
        (u16 (((if Control.pattern_background p.control then 1 else 0) <<< 12)
          + (p.bg_next_tile_id <<< 4) + Loopy.fine_y p.vram_addr + 8)) with
      | none => none
      | some d => some { p with bg_next_tile_msb := d }
    else if (p.cycle - 1) % 8 = 7 then
      some p.increment_scroll_x
    else
      some p
  else some p0

/-- The sprite pattern address (low plane) for entry `i` of secondary
OAM, from the cycle-340 block: 8x8 vs 8x16, vertically flipped or not. -/
def spriteFetchAddrLo (p : Ppu) (i : Nat) : Nat :=
  let e := p.sprite_scanline i
  if ! Control.sprite_size p.control then
    if e.attr &&& 0x80 = 0 then
      ((if Control.pattern_sprite p.control then 1 else 0) <<< 12)
        ||| u16 (e.id <<< 4)
        ||| u16sub (i16u16 p.scanline) e.y
    else
      ((if Control.pattern_sprite p.control then 1 else 0) <<< 12)
        ||| u16 (e.id <<< 4)
        ||| u16sub 7 (u16sub (i16u16 p.scanline) e.y)
  else
    if e.attr &&& 0x80 = 0 then
      if p.scanline - (e.y : Int) < 8 then
        ((e.id &&& 0x01) <<< 12)
          ||| u16 ((e.id &&& 0xFE) <<< 4)
          ||| (u16sub (i16u16 p.scanline) e.y &&& 0x07)
      else
        ((e.id &&& 0x01) <<< 12)
          ||| u16 (u16 ((e.id &&& 0xFE) + 1) <<< 4)
          ||| (u16sub (i16u16 p.scanline) e.y &&& 0x07)
    else
      if p.scanline - (e.y : Int) < 8 then
        ((e.id &&& 0x01) <<< 12)
          ||| u16 (u16 ((e.id &&& 0xFE) + 1) <<< 4)
          ||| u16sub 7 (u16sub (i16u16 p.scanline) e.y &&& 0x07)
      else
        ((e.id &&& 0x01) <<< 12)
          ||| u16 ((e.id &&& 0xFE) <<< 4)
          ||| u16sub 7 (u16sub (i16u16 p.scanline) e.y &&& 0x07)

/-- `flip_byte` from the cycle-340 block: reverse the bit order. -/
def flip_byte (b0 : Nat) : Nat :=
  let b := u8 ((b0 &&& 0xF0) >>> 4) ||| u8 ((b0 &&& 0x0F) <<< 4)
  let b := u8 ((b &&& 0xCC) >>> 2) ||| u8 ((b &&& 0x33) <<< 2)
  u8 ((b &&& 0xAA) >>> 1) ||| u8 ((b &&& 0x55) <<< 1)

/-- Fetch the two pattern planes for secondary-OAM entry `i` and load
its shifters (one iteration of the cycle-340 loop). -/
def spriteFetchOne (p : Ppu) (cart : Cartridge) (i : Nat) : Option Ppu :=
  let addr_lo := spriteFetchAddrLo p i
  let addr_hi := u16 (addr_lo + 8)
  match p.ppu_read cart addr_lo with
  | none => none
  | some lo =>
    match p.ppu_read cart addr_hi with
    | none => none
    | some hi =>
      let e := p.sprite_scanline i
      let lo := if e.attr &&& 0x40 > 0 then flip_byte lo else lo
      let hi := if e.attr &&& 0x40 > 0 then flip_byte hi else hi
      let p1 := { p with sprite_shifter_pattern_lo := upd1 p.sprite_shifter_pattern_lo i lo }
      some { p1 with sprite_shifter_pattern_hi := upd1 p1.sprite_shifter_pattern_hi i hi }

/-- The cycle-340 loop over the `sprite_count` secondary-OAM entries. -/
def spriteFetchLoop (cart : Cartridge) : Ppu → Nat → Nat → Option Ppu
  | p, _, 0 => some p
  | p, i, fuel + 1 =>
    match spriteFetchOne p cart i with
    | none => none
    | some p' => spriteFetchLoop cart p' (i + 1) fuel

/-- The foreground-pixel scan of the composition stage: walk secondary
OAM, take the first sprite at x = 0 with a non-zero pixel (keeping the
last examined attributes otherwise); the fourth component is
`sprite_zero_being_rendered` (true only on a break at entry 0). -/
def fgScan (p : Ppu) : Nat → Nat → Nat → Nat → Bool → Nat × Nat × Bool × Bool
  | 0, _, fgp, fgpal, fgpri => (fgp, fgpal, fgpri, false)
  | fuel + 1, i, fgp, fgpal, fgpri =>
    if (p.sprite_scanline i).x = 0 then
      let lo : Nat := if (p.sprite_shifter_pattern_lo i) &&& 0x80 > 0 then 1 else 0
      let hi : Nat := if (p.sprite_shifter_pattern_hi i) &&& 0x80 > 0 then 1 else 0
      let fgp' := u8 (hi <<< 1) ||| lo
      let fgpal' := u8 (((p.sprite_scanline i).attr &&& 0x03) + 0x04)
      let fgpri' := decide (((p.sprite_scanline i).attr &&& 0x20) = 0)
      if fgp' ≠ 0 then (fgp', fgpal', fgpri', decide (i = 0))
      else fgScan p fuel (i + 1) fgp' fgpal' fgpri'
    else fgScan p fuel (i + 1) fgp fgpal fgpri

/-- The pixel-composition tail of `Ppu::clock`: background and sprite
pixel extraction, the sprite-zero-hit update, and (omitted with the
host) the framebuffer store of the selected pixel/palette pair.  The
background palette bits and the final pixel/palette selection feed only
that store, so only `bg_pixel`, the foreground scan and the hit logic
are carried. -/
def Ppu.composeDot (p0 : Ppu) : Ppu :=
  let bg_pixel : Nat :=
    if Mask.render_background p0.mask ∧
       (Mask.render_background_left p0.mask ∨ 9 ≤ p0.cycle) then
      let bit_mux := 0x8000 >>> p0.fine_x
      let pp0 : Nat := if p0.bg_shifter_pattern_lo &&& bit_mux > 0 then 1 else 0
      let pp1 : Nat := if p0.bg_shifter_pattern_hi &&& bit_mux > 0 then 1 else 0
      u8 (pp1 <<< 1) ||| pp0
    else 0
  let fg :=
    if Mask.render_sprites p0.mask ∧
       (Mask.render_sprites_left p0.mask ∨ 9 ≤ p0.cycle) then
      fgScan p0 p0.sprite_count 0 0 0 false
    else (0, 0, false, p0.sprite_zero_being_rendered)
  let fg_pixel := fg.1
  let p1 := { p0 with sprite_zero_being_rendered := fg.2.2.2 }
  let new_status :=
    if bg_pixel > 0 ∧ fg_pixel > 0 then
      if p1.sprite_zero_being_rendered ∧ p1.sprite_zero_hit_possible then
        if Mask.render_background p1.mask ∧ Mask.render_sprites p1.mask then
          if ! (Mask.render_background_left p1.mask || Mask.render_sprites_left p1.mask) then
            if 9 ≤ p1.cycle ∧ p1.cycle < 258 then
              Status.set_sprite_zero_hit p1.status true
            else p1.status
          else
            if 1 ≤ p1.cycle ∧ p1.cycle < 258 then
              Status.set_sprite_zero_hit p1.status true
            else p1.status
        else p1.status
      else p1.status
    else p1.status
  { p1 with status := new_status }

/-- The odd-frame cycle skip at (scanline 0, cycle 0). -/
def clockOddSkip (p0 : Ppu) : Ppu :=
  { p0 with cycle :=
    if p0.scanline = 0 ∧ p0.cycle = 0 ∧ p0.odd_frame = true ∧
       (Mask.render_background p0.mask ∨ Mask.render_sprites p0.mask)
    then 1 else p0.cycle }

/-- Start of the pre-render line: clear VBlank/overflow/zero-hit and
the sprite shifters. -/
def clockClearFlags (p : Ppu) : Ppu :=
  if p.scanline = -1 ∧ p.cycle = 1 then
    { p with
      status := Status.set_sprite_zero_hit
        (Status.set_sprite_overflow (Status.set_vertical_blank p.status false) false) false
      sprite_shifter_pattern_lo := fun _ => 0
      sprite_shifter_pattern_hi := fun _ => 0 }
  else p

/-- `if cycle == 256`: step the vertical scroll. -/
def clockStage256 (p : Ppu) : Ppu :=
  if p.cycle = 256 then p.increment_scroll_y else p

/-- `if cycle == 257`: reload the shifters and re-home x. -/
def clockStage257 (p : Ppu) : Ppu :=
  if p.cycle = 257 then (p.load_background_shifters).transfer_address_x else p

/-- `if cycle == 338 || cycle == 340`: dummy nametable fetch. -/
def clockStage338 (p : Ppu) (cart : Cartridge) : Option Ppu :=
  if p.cycle = 338 ∨ p.cycle = 340 then
    match p.ppu_read cart (0x2000 ||| (p.vram_addr &&& 0x0FFF)) with
    | none => none
    | some d => some { p with bg_next_tile_id := d }
  else some p

/-- Pre-render cycles 280-304: re-home y. -/
def clockStagePre (p : Ppu) : Ppu :=
  if p.scanline = -1 ∧ 280 ≤ p.cycle ∧ p.cycle < 305 then p.transfer_address_y else p

/-- Cycle 257 of a visible scanline: rebuild secondary OAM. -/
def clockStageSpriteEval (p : Ppu) : Ppu :=
  if p.cycle = 257 ∧ 0 ≤ p.scanline then spriteEvaluation p else p

/-- Cycle 340: load the sprite pattern shifters. -/
def clockStageSpriteFetch (p : Ppu) (cart : Cartridge) : Option Ppu :=
  if p.cycle = 340 then spriteFetchLoop cart p 0 p.sprite_count else some p

/-- The `scanline >= -1 && scanline < 240` body of `Ppu::clock`, as the
sequence of its source statements. -/
def Ppu.clockVisible (p0 : Ppu) (cart : Cartridge) : Option Ppu :=
  if -1 ≤ p0.scanline ∧ p0.scanline < 240 then
    match (clockClearFlags (clockOddSkip p0)).bgFetch cart with
    | none => none
    | some p1 =>
      match clockStage338 (clockStage257 (clockStage256 p1)) cart with
      | none => none
      | some p2 =>
        clockStageSpriteFetch (clockStageSpriteEval (clockStagePre p2)) cart
  else some p0

/-- VBlank entry at (241, 1): set the flag and, when NMI generation is
enabled (`control` is untouched here, so the test reads the same word
the source reads after the status write), raise the NMI line. -/
def clockVBlankStage (p0 : Ppu) : Ppu :=
  if 241 ≤ p0.scanline ∧ p0.scanline < 261 then
    if p0.scanline = 241 ∧ p0.cycle = 1 then
      { p0 with
        status := Status.set_vertical_blank p0.status true
        nmi := if Control.enable_nmi p0.control then true else p0.nmi }
    else p0
  else p0

/-- The cycle/scanline/frame advance closing `Ppu::clock`. -/
def clockAdvance (p0 : Ppu) : Ppu :=
  let p := { p0 with cycle := p0.cycle + 1 }
  if 341 ≤ p.cycle then
    let p1 := { p with cycle := 0, scanline := p.scanline + 1 }
    if 261 ≤ p1.scanline then
      { p1 with scanline := -1, frame_complete := true, odd_frame := ! p1.odd_frame }
    else p1
  else p

/-- The tail of `Ppu::clock`: VBlank entry and NMI at (241, 1), the
dot composition, and the cycle/scanline/frame advance.  (Scanline 240
does nothing; the mapper scanline tick at cycle 260 is a no-op on the
modelled mapper.) -/
def Ppu.clockTail (p0 : Ppu) : Ppu :=
  clockAdvance (Ppu.composeDot (clockVBlankStage p0))

/-- `Ppu::clock`. -/
def Ppu.clock (p0 : Ppu) (cart : Cartridge) : Option Ppu :=
  match p0.clockVisible cart with
  | none => none
  | some p => some p.clockTail

/-! ## C5: the loopy registers under CPU register traffic and clock ticks

A trace of CPU accesses to the eight PPU registers ($2000-$2007 after
the bus mask), interleaved with PPU clock ticks.  `regStep` performs
one access or tick; a panicking step (`none`) aborts the trace. -/

inductive RegOp where
  | write (addr data : Nat)
  | read (addr : Nat)
  | tick

def regStep (s : Ppu × Cartridge) : RegOp → Option (Ppu × Cartridge)
  | RegOp.write a d => (s.1).cpu_write s.2 a d
  | RegOp.read a =>
      match (s.1).cpu_read s.2 a false with
      | none => none
      | some (_, p') => some (p', s.2)
  | RegOp.tick =>
      match (s.1).clock s.2 with
      | none => none
      | some p' => some (p', s.2)

def runOps : Ppu × Cartridge → List RegOp → Option (Ppu × Cartridge)
  | s, [] => some s
  | s, op :: rest =>
      match regStep s op with
      | none => none
      | some s' => runOps s' rest

/-- Cartridge used in the C5 trace: NROM with CHR ROM present. -/
def c5Cart : Cartridge := nromCart [] [] 1 1 Mirror.Horizontal

/-- Register writes that drive `t` to 0x7FFF through the scroll and
control registers, copy it into `v` via the shared address latch, and
then let the unmasked $2007 increment push `v` past 15 bits. -/
def c5Trace : List RegOp :=
  [RegOp.write 0x0005 0xFF, RegOp.write 0x0005 0xFF, RegOp.write 0x0000 0x03,
   RegOp.write 0x0005 0x00, RegOp.write 0x0006 0xFF, RegOp.write 0x0007 0x00]

/-- C5 counterexample: after `c5Trace` the current VRAM address is
0x8000 — bit 15 is set, so `v` exceeds 15 bits in a reachable state. -/
theorem vram_addr_exceeds_15_bits :
    (runOps (Ppu.new, c5Cart) c5Trace).map (fun s => s.1.vram_addr) = some 0x8000 ∧
    ¬ (0x8000 : Nat) < 2 ^ 15 := by
  constructor <;> decide

/-- Or with both operands below 2^15 stays below 2^15. -/
theorem or_lt_32768 {x y : Nat} (hx : x < 32768) (hy : y < 32768) :
    x ||| y < 32768 := by
  have e : (32768 : Nat) = 2 ^ 15 := by norm_num
  rw [e] at hx hy ⊢
  exact Nat.or_lt_two_pow hx hy

theorem set_coarse_x_lt (t v : Nat) (h : t < 32768) :
    Loopy.set_coarse_x t v < 32768 := by
  unfold Loopy.set_coarse_x
  exact or_lt_32768 (lt_of_le_of_lt Nat.and_le_left h)
    (lt_of_le_of_lt Nat.and_le_right (by norm_num))

theorem set_coarse_y_lt (t v : Nat) (h : t < 32768) :
    Loopy.set_coarse_y t v < 32768 := by
  unfold Loopy.set_coarse_y
  refine or_lt_32768 (lt_of_le_of_lt Nat.and_le_left h) ?_
  have h1 : v &&& 0x1F ≤ 31 := Nat.and_le_right
  have h2 : (v &&& 0x1F) <<< 5 = (v &&& 0x1F) * 32 := by
    simp [Nat.shiftLeft_eq]
  omega

theorem set_nametable_x_lt (t : Nat) (b : Bool) (h : t < 32768) :
    Loopy.set_nametable_x t b < 32768 := by
  unfold Loopy.set_nametable_x
  refine or_lt_32768 (lt_of_le_of_lt Nat.and_le_left h) ?_
  cases b <;> norm_num

theorem set_nametable_y_lt (t : Nat) (b : Bool) (h : t < 32768) :
    Loopy.set_nametable_y t b < 32768 := by
  unfold Loopy.set_nametable_y
  refine or_lt_32768 (lt_of_le_of_lt Nat.and_le_left h) ?_
  cases b <;> norm_num

theorem set_fine_y_lt (t v : Nat) (h : t < 32768) :
    Loopy.set_fine_y t v < 32768 := by
  unfold Loopy.set_fine_y
  refine or_lt_32768 (lt_of_le_of_lt Nat.and_le_left h) ?_
  have h1 : v &&& 0x07 ≤ 7 := Nat.and_le_right
  have h2 : (v &&& 0x07) <<< 12 = (v &&& 0x07) * 4096 := by
    simp [Nat.shiftLeft_eq]
  omega

/-- Or with both operands below 2^16 stays below 2^16. -/
theorem or_lt_65536 {x y : Nat} (hx : x < 65536) (hy : y < 65536) :
    x ||| y < 65536 := by
  have e : (65536 : Nat) = 2 ^ 16 := by norm_num
  rw [e] at hx hy ⊢
  exact Nat.or_lt_two_pow hx hy

/-! Every loopy field setter leaves a 16-bit word, whatever the input
was: the kept bits come through a mask below 2^16. -/

theorem set_coarse_x_lt16 (t v : Nat) : Loopy.set_coarse_x t v < 65536 := by
  unfold Loopy.set_coarse_x
  exact or_lt_65536 (lt_of_le_of_lt Nat.and_le_right (by decide))
    (lt_of_le_of_lt Nat.and_le_right (by decide))

theorem set_coarse_y_lt16 (t v : Nat) : Loopy.set_coarse_y t v < 65536 := by
  unfold Loopy.set_coarse_y
  refine or_lt_65536 (lt_of_le_of_lt Nat.and_le_right (by decide)) ?_
  have h1 : v &&& 0x1F ≤ 31 := Nat.and_le_right
  have h2 : (v &&& 0x1F) <<< 5 = (v &&& 0x1F) * 32 := by
    simp [Nat.shiftLeft_eq]
  omega

theorem set_nametable_x_lt16 (t : Nat) (b : Bool) :
    Loopy.set_nametable_x t b < 65536 := by
  unfold Loopy.set_nametable_x
  refine or_lt_65536 (lt_of_le_of_lt Nat.and_le_right (by decide)) ?_
  cases b <;> norm_num

theorem set_nametable_y_lt16 (t : Nat) (b : Bool) :
    Loopy.set_nametable_y t b < 65536 := by
  unfold Loopy.set_nametable_y
  refine or_lt_65536 (lt_of_le_of_lt Nat.and_le_right (by decide)) ?_
  cases b <;> norm_num

theorem set_fine_y_lt16 (t v : Nat) : Loopy.set_fine_y t v < 65536 := by
  unfold Loopy.set_fine_y
  refine or_lt_65536 (lt_of_le_of_lt Nat.and_le_right (by decide)) ?_
  have h1 : v &&& 0x07 ≤ 7 := Nat.and_le_right
  have h2 : (v &&& 0x07) <<< 12 = (v &&& 0x07) * 4096 := by
    simp [Nat.shiftLeft_eq]
  omega

/-- What one PPU step is allowed to do to the loopy registers: keep
`t`, and either keep `v` or leave it within 16 bits. -/
def LoopyOk (p q : Ppu) : Prop :=
  q.tram_addr = p.tram_addr ∧ (q.vram_addr = p.vram_addr ∨ q.vram_addr < 65536)

theorem LoopyOk.of_eq {p q : Ppu} (ht : q.tram_addr = p.tram_addr)
    (hv : q.vram_addr = p.vram_addr) : LoopyOk p q := ⟨ht, Or.inl hv⟩

theorem LoopyOk.refl (p : Ppu) : LoopyOk p p := ⟨rfl, Or.inl rfl⟩

theorem LoopyOk.trans {p q r : Ppu} (h1 : LoopyOk p q) (h2 : LoopyOk q r) :
    LoopyOk p r := by
  obtain ⟨a1, a2⟩ := h1
  obtain ⟨b1, b2⟩ := h2
  refine ⟨b1.trans a1, ?_⟩
  rcases b2 with b2 | b2
  · rcases a2 with a2 | a2
    · exact Or.inl (b2.trans a2)
    · rw [b2]; exact Or.inr a2
  · exact Or.inr b2

theorem increment_scroll_x_loopy (p : Ppu) : LoopyOk p p.increment_scroll_x := by
  simp only [Ppu.increment_scroll_x]
  split_ifs with h1 h2
  · exact ⟨rfl, Or.inr (set_nametable_x_lt16 _ _)⟩
  · exact ⟨rfl, Or.inr (set_coarse_x_lt16 _ _)⟩
  · exact LoopyOk.refl p

theorem increment_scroll_y_loopy (p : Ppu) : LoopyOk p p.increment_scroll_y := by
  simp only [Ppu.increment_scroll_y]
  split_ifs with h1 h2 h3 h4
  · exact ⟨rfl, Or.inr (set_fine_y_lt16 _ _)⟩
  · exact ⟨rfl, Or.inr (set_nametable_y_lt16 _ _)⟩
  · exact ⟨rfl, Or.inr (set_coarse_y_lt16 _ _)⟩
  · exact ⟨rfl, Or.inr (set_coarse_y_lt16 _ _)⟩
  · exact LoopyOk.refl p

theorem transfer_address_x_loopy (p : Ppu) : LoopyOk p p.transfer_address_x := by
  simp only [Ppu.transfer_address_x]
  split_ifs with h1
  · exact ⟨rfl, Or.inr (set_coarse_x_lt16 _ _)⟩
  · exact LoopyOk.refl p

theorem transfer_address_y_loopy (p : Ppu) : LoopyOk p p.transfer_address_y := by
  simp only [Ppu.transfer_address_y]
  split_ifs with h1
  · exact ⟨rfl, Or.inr (set_coarse_y_lt16 _ _)⟩
  · exact LoopyOk.refl p

theorem updateSpriteShifters_loopy : ∀ (fuel i : Nat) (p : Ppu),
    (updateSpriteShifters p i fuel).tram_addr = p.tram_addr ∧
    (updateSpriteShifters p i fuel).vram_addr = p.vram_addr := by
  intro fuel
  induction fuel with
  | zero => intro i p; exact ⟨rfl, rfl⟩
  | succ f ih =>
    intro i p
    simp only [updateSpriteShifters]
    split_ifs with h
    · exact ih (i + 1) _
    · exact ih (i + 1) _

theorem update_shifters_loopy (p : Ppu) :
    (p.update_shifters).tram_addr = p.tram_addr ∧
    (p.update_shifters).vram_addr = p.vram_addr := by
  simp only [Ppu.update_shifters]
  split_ifs with h1 h2 h3
  · exact updateSpriteShifters_loopy _ _ _
  · exact ⟨rfl, rfl⟩
  · exact updateSpriteShifters_loopy _ _ _
  · exact ⟨rfl, rfl⟩

theorem bgFetch_loopy (p : Ppu) (cart : Cartridge) (q : Ppu)
    (h : p.bgFetch cart = some q) : LoopyOk p q := by
  simp only [Ppu.bgFetch] at h
  by_cases hg : (2 ≤ p.cycle ∧ p.cycle < 258) ∨ (321 ≤ p.cycle ∧ p.cycle < 338)
  case neg =>
    rw [if_neg hg] at h
    simp only [Option.some.injEq] at h
    subst h
    exact LoopyOk.refl p
  case pos =>
    rw [if_pos hg] at h
    obtain ⟨hU1, hU2⟩ := update_shifters_loopy p
    have base : LoopyOk p p.update_shifters := ⟨hU1, Or.inl hU2⟩
    by_cases h0 : (p.update_shifters.cycle - 1) % 8 = 0
    · rw [if_pos h0] at h
      rcases hr : (p.update_shifters.load_background_shifters).ppu_read cart
          (0x2000 ||| (p.update_shifters.load_background_shifters.vram_addr &&& 0x0FFF))
        with _ | d <;> simp only [hr] at h
      · exact absurd h (by simp)
      · simp only [Option.some.injEq] at h
        subst h
        exact base
    · rw [if_neg h0] at h
      by_cases h2 : (p.update_shifters.cycle - 1) % 8 = 2
      · rw [if_pos h2] at h
        rcases hr : p.update_shifters.ppu_read cart
            (0x23C0 ||| ((if Loopy.nametable_y p.update_shifters.vram_addr then 1 else 0) <<< 11)
              ||| ((if Loopy.nametable_x p.update_shifters.vram_addr then 1 else 0) <<< 10)
              ||| ((Loopy.coarse_y p.update_shifters.vram_addr >>> 2) <<< 3)
              ||| (Loopy.coarse_x p.update_shifters.vram_addr >>> 2))
          with _ | d <;> simp only [hr] at h
        · exact absurd h (by simp)
        · simp only [Option.some.injEq] at h
          subst h
          exact base
      · rw [if_neg h2] at h
        by_cases h4 : (p.update_shifters.cycle - 1) % 8 = 4
        · rw [if_pos h4] at h
          rcases hr : p.update_shifters.ppu_read cart
              (u16 (((if Control.pattern_background p.update_shifters.control then 1 else 0) <<< 12)
                + (p.update_shifters.bg_next_tile_id <<< 4)
                + Loopy.fine_y p.update_shifters.vram_addr))
            with _ | d <;> simp only [hr] at h
          · exact absurd h (by simp)
          · simp only [Option.some.injEq] at h
            subst h
            exact base
        · rw [if_neg h4] at h
          by_cases h6 : (p.update_shifters.cycle - 1) % 8 = 6
          · rw [if_pos h6] at h
            rcases hr : p.update_shifters.ppu_read cart
                (u16 (((if Control.pattern_background p.update_shifters.control then 1 else 0) <<< 12)
                  + (p.update_shifters.bg_next_tile_id <<< 4)
                  + Loopy.fine_y p.update_shifters.vram_addr + 8))
              with _ | d <;> simp only [hr] at h
            · exact absurd h (by simp)
            · simp only [Option.some.injEq] at h
              subst h
              exact base
          · rw [if_neg h6] at h
            by_cases h7 : (p.update_shifters.cycle - 1) % 8 = 7
            · rw [if_pos h7] at h
              simp only [Option.some.injEq] at h
              subst h
              exact LoopyOk.trans base (increment_scroll_x_loopy _)
            · rw [if_neg h7] at h
              simp only [Option.some.injEq] at h
              subst h
              exact base

theorem composeDot_tram (p : Ppu) : (p.composeDot).tram_addr = p.tram_addr := rfl

theorem composeDot_vram (p : Ppu) : (p.composeDot).vram_addr = p.vram_addr := rfl

theorem clockOddSkip_loopy (p : Ppu) :
    (clockOddSkip p).tram_addr = p.tram_addr ∧
    (clockOddSkip p).vram_addr = p.vram_addr := ⟨rfl, rfl⟩

theorem clockClearFlags_loopy (p : Ppu) :
    (clockClearFlags p).tram_addr = p.tram_addr ∧
    (clockClearFlags p).vram_addr = p.vram_addr := by
  unfold clockClearFlags
  split_ifs <;> exact ⟨rfl, rfl⟩

theorem clockStage256_loopy (p : Ppu) : LoopyOk p (clockStage256 p) := by
  unfold clockStage256
  split_ifs with h
  · exact increment_scroll_y_loopy p
  · exact LoopyOk.refl p

theorem clockStage257_loopy (p : Ppu) : LoopyOk p (clockStage257 p) := by
  unfold clockStage257
  split_ifs with h
  · exact LoopyOk.trans (LoopyOk.of_eq rfl rfl) (transfer_address_x_loopy _)
  · exact LoopyOk.refl p

theorem clockStage338_loopy (p : Ppu) (cart : Cartridge) (q : Ppu)
    (h : clockStage338 p cart = some q) : LoopyOk p q := by
  unfold clockStage338 at h
  split_ifs at h with hc
  · rcases hr : p.ppu_read cart (0x2000 ||| (p.vram_addr &&& 0x0FFF)) with _ | d <;>
      simp only [hr] at h
    · exact absurd h (by simp)
    · simp only [Option.some.injEq] at h
      subst h
      exact LoopyOk.refl p
  · simp only [Option.some.injEq] at h
    subst h
    exact LoopyOk.refl p

theorem clockStagePre_loopy (p : Ppu) : LoopyOk p (clockStagePre p) := by
  unfold clockStagePre
  split_ifs with h
  · exact transfer_address_y_loopy p
  · exact LoopyOk.refl p

theorem spriteEvalStep_tram (p : Ppu) (e : Nat) :
    (spriteEvalStep p e).tram_addr = p.tram_addr := by
  unfold spriteEvalStep
  split_ifs <;> rfl

theorem spriteEvalStep_vram (p : Ppu) (e : Nat) :
    (spriteEvalStep p e).vram_addr = p.vram_addr := by
  unfold spriteEvalStep
  split_ifs <;> rfl

theorem spriteEvalLoop_loopy : ∀ (fuel : Nat) (p : Ppu) (e : Nat),
    (spriteEvalLoop p e fuel).tram_addr = p.tram_addr ∧
    (spriteEvalLoop p e fuel).vram_addr = p.vram_addr := by
  intro fuel
  induction fuel with
  | zero => intro p e; exact ⟨rfl, rfl⟩
  | succ f ih =>
    intro p e
    simp only [spriteEvalLoop]
    split_ifs with h
    · obtain ⟨a, b⟩ := ih (spriteEvalStep p e) (e + 1)
      exact ⟨a.trans (spriteEvalStep_tram p e), b.trans (spriteEvalStep_vram p e)⟩
    · exact ⟨rfl, rfl⟩

theorem spriteEvaluation_loopy (p : Ppu) :
    (spriteEvaluation p).tram_addr = p.tram_addr ∧
    (spriteEvaluation p).vram_addr = p.vram_addr := by
  obtain ⟨a, b⟩ := spriteEvalLoop_loopy 64 (spriteEvalReset p) 0
  exact ⟨a, b⟩

theorem clockStageSpriteEval_loopy (p : Ppu) : LoopyOk p (clockStageSpriteEval p) := by
  unfold clockStageSpriteEval
  split_ifs with h
  · obtain ⟨a, b⟩ := spriteEvaluation_loopy p
    exact ⟨a, Or.inl b⟩
  · exact LoopyOk.refl p

theorem spriteFetchOne_loopy (p : Ppu) (cart : Cartridge) (i : Nat) (q : Ppu)
    (h : spriteFetchOne p cart i = some q) :
    q.tram_addr = p.tram_addr ∧ q.vram_addr = p.vram_addr := by
  simp only [spriteFetchOne] at h
  rcases hr1 : p.ppu_read cart (spriteFetchAddrLo p i) with _ | lo <;>
    simp only [hr1] at h
  · exact absurd h (by simp)
  · rcases hr2 : p.ppu_read cart (u16 (spriteFetchAddrLo p i + 8)) with _ | hi <;>
      simp only [hr2] at h
    · exact absurd h (by simp)
    · simp only [Option.some.injEq] at h
      subst h
      exact ⟨rfl, rfl⟩

theorem spriteFetchLoop_loopy : ∀ (fuel : Nat) (p : Ppu) (i : Nat) (q : Ppu),
    spriteFetchLoop cart p i fuel = some q →
    q.tram_addr = p.tram_addr ∧ q.vram_addr = p.vram_addr := by
  intro fuel
  induction fuel with
  | zero =>
    intro p i q h
    simp only [spriteFetchLoop, Option.some.injEq] at h
    subst h
    exact ⟨rfl, rfl⟩
  | succ f ih =>
    intro p i q h
    simp only [spriteFetchLoop] at h
    rcases hone : spriteFetchOne p cart i with _ | p2 <;> simp only [hone] at h
    · exact absurd h (by simp)
    · obtain ⟨a, b⟩ := ih p2 (i + 1) q h
      obtain ⟨c, d⟩ := spriteFetchOne_loopy p cart i p2 hone
      exact ⟨a.trans c, b.trans d⟩

theorem clockStageSpriteFetch_loopy (p : Ppu) (cart : Cartridge) (q : Ppu)
    (h : clockStageSpriteFetch p cart = some q) : LoopyOk p q := by
  unfold clockStageSpriteFetch at h
  split_ifs at h with hc
  · obtain ⟨a, b⟩ := spriteFetchLoop_loopy p.sprite_count p 0 q h
    exact ⟨a, Or.inl b⟩
  · simp only [Option.some.injEq] at h
    subst h
    exact LoopyOk.refl p

theorem clockVisible_loopy (p : Ppu) (cart : Cartridge) (q : Ppu)
    (h : p.clockVisible cart = some q) : LoopyOk p q := by
  unfold Ppu.clockVisible at h
  split_ifs at h with hv
  · rcases hbf : (clockClearFlags (clockOddSkip p)).bgFetch cart with _ | p1 <;>
      simp only [hbf] at h
    · exact absurd h (by simp)
    · rcases h38 : clockStage338 (clockStage257 (clockStage256 p1)) cart with _ | p2 <;>
        simp only [h38] at h
      · exact absurd h (by simp)
      · have A : LoopyOk p (clockClearFlags (clockOddSkip p)) := by
          obtain ⟨a, b⟩ := clockClearFlags_loopy (clockOddSkip p)
          obtain ⟨c, d⟩ := clockOddSkip_loopy p
          exact ⟨a.trans c, Or.inl (b.trans d)⟩
        have B := bgFetch_loopy _ cart p1 hbf
        have C := clockStage256_loopy p1
        have D := clockStage257_loopy (clockStage256 p1)
        have E := clockStage338_loopy _ cart p2 h38
        have F := clockStagePre_loopy p2
        have G := clockStageSpriteEval_loopy (clockStagePre p2)
        have H := clockStageSpriteFetch_loopy _ cart q h
        exact ((((((A.trans B).trans C).trans D).trans E).trans F).trans G).trans H
  · simp only [Option.some.injEq] at h
    subst h
    exact LoopyOk.refl p

theorem clockVBlankStage_loopy (p : Ppu) :
    (clockVBlankStage p).tram_addr = p.tram_addr ∧
    (clockVBlankStage p).vram_addr = p.vram_addr := by
  unfold clockVBlankStage
  split_ifs <;> exact ⟨rfl, rfl⟩

theorem clockAdvance_loopy (p : Ppu) :
    (clockAdvance p).tram_addr = p.tram_addr ∧
    (clockAdvance p).vram_addr = p.vram_addr := by
  simp only [clockAdvance]
  split_ifs <;> exact ⟨rfl, rfl⟩

theorem clockTail_loopy (p : Ppu) :
    (p.clockTail).tram_addr = p.tram_addr ∧
    (p.clockTail).vram_addr = p.vram_addr := by
  unfold Ppu.clockTail
  obtain ⟨a1, a2⟩ := clockVBlankStage_loopy p
  obtain ⟨b1, b2⟩ := clockAdvance_loopy ((clockVBlankStage p).composeDot)
  exact ⟨b1.trans ((composeDot_tram _).trans a1),
    b2.trans ((composeDot_vram _).trans a2)⟩

/-- `Ppu::clock` keeps `t` and either keeps `v` or leaves it within 16
bits (the scroll increments and transfers go through the masked loopy
setters). -/
theorem clock_keeps_loopy (p : Ppu) (cart : Cartridge) (q : Ppu)
    (h : p.clock cart = some q) : LoopyOk p q := by
  unfold Ppu.clock at h
  rcases hv : p.clockVisible cart with _ | p1 <;> simp only [hv] at h
  · exact absurd h (by simp)
  · simp only [Option.some.injEq] at h
    subst h
    obtain ⟨a, b⟩ := clockTail_loopy p1
    exact LoopyOk.trans (clockVisible_loopy p cart p1 hv) ⟨a, Or.inl b⟩

/-- `Ppu::ppu_write` never touches `v` or `t`. -/
theorem ppu_write_keeps_loopy (p : Ppu) (c : Cartridge) (a d : Nat)
    (p' : Ppu) (c' : Cartridge) (h : p.ppu_write c a d = some (p', c')) :
    p'.tram_addr = p.tram_addr ∧ p'.vram_addr = p.vram_addr := by
  simp only [Ppu.ppu_write] at h
  rcases hc : c.ppu_write (a &&& 0x3FFF) d with _ | ⟨b, c2⟩
  · rw [hc] at h
    exact Option.noConfusion h
  · cases b
    · simp only [hc] at h
      by_cases hp1 : (a &&& 0x3FFF) ≤ 0x1FFF
      · simp only [if_pos hp1, Option.some.injEq, Prod.mk.injEq] at h
        obtain ⟨h1, h2⟩ := h
        subst h1
        exact ⟨rfl, rfl⟩
      · by_cases hp2 : 0x2000 ≤ (a &&& 0x3FFF) ∧ (a &&& 0x3FFF) ≤ 0x3EFF
        · simp only [if_neg hp1, if_pos hp2] at h
          rcases hm : c.mirror with _ | _ | _ | _ | _
          · simp only [hm] at h
            exact Option.noConfusion h
          · simp only [hm, Option.some.injEq, Prod.mk.injEq] at h
            obtain ⟨h1, h2⟩ := h
            subst h1
            exact ⟨rfl, rfl⟩
          · simp only [hm, Option.some.injEq, Prod.mk.injEq] at h
            obtain ⟨h1, h2⟩ := h
            subst h1
            exact ⟨rfl, rfl⟩
          · simp only [hm] at h
            exact Option.noConfusion h
          · simp only [hm] at h
            exact Option.noConfusion h
        · by_cases hp3 : 0x3F00 ≤ (a &&& 0x3FFF) ∧ (a &&& 0x3FFF) ≤ 0x3FFF
          · simp only [if_neg hp1, if_neg hp2, if_pos hp3, Option.some.injEq,
              Prod.mk.injEq] at h
            obtain ⟨h1, h2⟩ := h
            subst h1
            exact ⟨rfl, rfl⟩
          · simp only [if_neg hp1, if_neg hp2, if_neg hp3, Option.some.injEq,
              Prod.mk.injEq] at h
            obtain ⟨h1, h2⟩ := h
            subst h1
            exact ⟨rfl, rfl⟩
    · simp only [hc, Option.some.injEq, Prod.mk.injEq] at h
      obtain ⟨h1, h2⟩ := h
      subst h1
      exact ⟨rfl, rfl⟩

/-- One register access keeps `t` within 15 bits and `v` within 16. -/
theorem regStep_within (s s' : Ppu × Cartridge) (op : RegOp)
    (hs : s.1.tram_addr < 32768 ∧ s.1.vram_addr < 65536)
    (h : regStep s op = some s') :
    s'.1.tram_addr < 32768 ∧ s'.1.vram_addr < 65536 := by
  obtain ⟨ht, hv⟩ := hs
  cases op with
  | write a d =>
    simp only [regStep, Ppu.cpu_write] at h
    by_cases h0 : a = 0x0000
    · simp only [if_pos h0, Option.some.injEq] at h
      subst h
      exact ⟨set_nametable_y_lt _ _ (set_nametable_x_lt _ _ ht), hv⟩
    · simp only [if_neg h0] at h
      by_cases h1 : a = 0x0001
      · simp only [if_pos h1, Option.some.injEq] at h
        subst h
        exact ⟨ht, hv⟩
      · simp only [if_neg h1] at h
        by_cases h2 : a = 0x0002
        · simp only [if_pos h2, Option.some.injEq] at h
          subst h
          exact ⟨ht, hv⟩
        · simp only [if_neg h2] at h
          by_cases h3 : a = 0x0003
          · simp only [if_pos h3, Option.some.injEq] at h
            subst h
            exact ⟨ht, hv⟩
          · simp only [if_neg h3] at h
            by_cases h4 : a = 0x0004
            · simp only [if_pos h4, Option.some.injEq] at h
              subst h
              exact ⟨ht, hv⟩
            · simp only [if_neg h4] at h
              by_cases h5 : a = 0x0005
              · simp only [if_pos h5] at h
                split at h
                · simp only [Option.some.injEq] at h
                  subst h
                  exact ⟨set_coarse_x_lt _ _ ht, hv⟩
                · simp only [Option.some.injEq] at h
                  subst h
                  exact ⟨set_coarse_y_lt _ _ (set_fine_y_lt _ _ ht), hv⟩
              · simp only [if_neg h5] at h
                by_cases h6 : a = 0x0006
                · simp only [if_pos h6] at h
                  split at h
                  · simp only [Option.some.injEq] at h
                    subst h
                    refine ⟨or_lt_32768 ?_ ?_, hv⟩
                    · have h7 : u8 d &&& 0x3F ≤ 63 := Nat.and_le_right
                      have h8 : (u8 d &&& 0x3F) <<< 8 = (u8 d &&& 0x3F) * 256 := by
                        simp [Nat.shiftLeft_eq]
                      omega
                    · exact lt_of_le_of_lt Nat.and_le_right (by norm_num)
                  · simp only [Option.some.injEq] at h
                    subst h
                    have htr : (s.1.tram_addr &&& 0xFF00) ||| u8 d < 32768 := by
                      refine or_lt_32768 (lt_of_le_of_lt Nat.and_le_left ht) ?_
                      have h9 : u8 d < 256 := Nat.mod_lt _ (by norm_num)
                      omega
                    exact ⟨htr, lt_of_lt_of_le htr (by norm_num)⟩
                · simp only [if_neg h6] at h
                  by_cases h7 : a = 0x0007
                  · simp only [if_pos h7] at h
                    rcases hp : (s.1).ppu_write s.2 s.1.vram_addr (u8 d) with _ | ⟨p2, c2⟩
                    · rw [hp] at h
                      exact Option.noConfusion h
                    · simp only [hp, Option.some.injEq] at h
                      subst h
                      obtain ⟨hpt, hpv⟩ := ppu_write_keeps_loopy _ _ _ _ _ _ hp
                      constructor
                      · show p2.tram_addr < 32768
                        rw [hpt]
                        exact ht
                      · show u16 _ < 65536
                        exact Nat.mod_lt _ (by norm_num)
                  · simp only [if_neg h7, Option.some.injEq] at h
                    subst h
                    exact ⟨ht, hv⟩
  | tick =>
    simp only [regStep] at h
    rcases hc : (s.1).clock s.2 with _ | p2 <;> simp only [hc] at h
    · exact absurd h (by simp)
    · simp only [Option.some.injEq] at h
      subst h
      obtain ⟨ht2, hv2⟩ := clock_keeps_loopy _ _ _ hc
      refine ⟨?_, ?_⟩
      · show p2.tram_addr < 32768
        rw [ht2]
        exact ht
      · show p2.vram_addr < 65536
        rcases hv2 with hv2 | hv2
        · rw [hv2]
          exact hv
        · exact hv2
  | read a =>
    simp only [regStep] at h
    rcases hr : (s.1).cpu_read s.2 a false with _ | ⟨dd, pp⟩
    · rw [hr] at h
      exact Option.noConfusion h
    · simp only [hr, Option.some.injEq] at h
      subst h
      simp only [Ppu.cpu_read] at hr
      rw [if_neg (by decide : ¬ (false = true))] at hr
      by_cases g2 : a = 0x0002
      · simp only [if_pos g2, Option.some.injEq, Prod.mk.injEq] at hr
        obtain ⟨hr1, hr2⟩ := hr
        subst hr2
        exact ⟨ht, hv⟩
      · simp only [if_neg g2] at hr
        by_cases g4 : a = 0x0004
        · simp only [if_pos g4, Option.some.injEq, Prod.mk.injEq] at hr
          obtain ⟨hr1, hr2⟩ := hr
          subst hr2
          exact ⟨ht, hv⟩
        · simp only [if_neg g4] at hr
          by_cases g7 : a = 0x0007
          · simp only [if_pos g7] at hr
            rcases hq : (s.1).ppu_read s.2 s.1.vram_addr with _ | fresh
            · rw [hq] at hr
              exact Option.noConfusion hr
            · simp only [hq, Option.some.injEq, Prod.mk.injEq] at hr
              obtain ⟨hr1, hr2⟩ := hr
              subst hr2
              constructor
              · exact ht
              · show u16 _ < 65536
                exact Nat.mod_lt _ (by norm_num)
          · simp only [if_neg g7, Option.some.injEq, Prod.mk.injEq] at hr
            obtain ⟨hr1, hr2⟩ := hr
            subst hr2
            exact ⟨ht, hv⟩

/-- The invariant carried along a whole trace. -/
theorem runOps_within : ∀ (ops : List RegOp) (s s' : Ppu × Cartridge),
    s.1.tram_addr < 32768 → s.1.vram_addr < 65536 →
    runOps s ops = some s' →
    s'.1.tram_addr < 32768 ∧ s'.1.vram_addr < 65536 := by
  intro ops
  induction ops with
  | nil =>
    intro s s' ht hv h
    simp only [runOps, Option.some.injEq] at h
    subst h
    exact ⟨ht, hv⟩
  | cons op rest ih =>
    intro s s' ht hv h
    simp only [runOps] at h
    rcases hstep : regStep s op with _ | s1 <;> rw [hstep] at h
    · exact absurd h (by simp)
    · obtain ⟨h1, h2⟩ := regStep_within s s1 op ⟨ht, hv⟩ hstep
      exact ih s1 s' h1 h2 h

/-- C5 (amended): from power-up, any sequence of CPU register accesses
keeps `t` within 15 bits and `v` within 16 bits; `v` itself is *not*
confined to 15 bits, because the $2007 auto-increment is unmasked. -/
theorem loopy_registers_bounded (ops : List RegOp) (c : Cartridge)
    (s' : Ppu × Cartridge) (h : runOps (Ppu.new, c) ops = some s') :
    s'.1.tram_addr < 2 ^ 15 ∧ s'.1.vram_addr < 2 ^ 16 := by
  have e1 : (2 : Nat) ^ 15 = 32768 := by norm_num
  have e2 : (2 : Nat) ^ 16 = 65536 := by norm_num
  rw [e1, e2]
  exact runOps_within ops (Ppu.new, c) s' (by norm_num [Ppu.new]) (by norm_num [Ppu.new]) h

/-- Witness for C5 (amended) on the empty trace. -/
theorem loopy_registers_bounded_witness :
    (Ppu.new, c5Cart).1.tram_addr < 2 ^ 15 ∧
    (Ppu.new, c5Cart).1.vram_addr < 2 ^ 16 :=
  loopy_registers_bounded [] c5Cart (Ppu.new, c5Cart) rfl

theorem countInRangeFrom_congr (p q : Ppu) (hoam : p.oam = q.oam)
    (hsc : p.scanline = q.scanline) (hctl : p.control = q.control) :
    ∀ fuel e, countInRangeFrom p e fuel = countInRangeFrom q e fuel := by
  intro fuel
  induction fuel with
  | zero => intro e; rfl
  | succ f ih =>
    intro e
    simp only [countInRangeFrom, spriteInRange, hoam, hsc, hctl, ih]

theorem spriteEvalStep_oam (p : Ppu) (e : Nat) :
    (spriteEvalStep p e).oam = p.oam := by
  unfold spriteEvalStep
  split_ifs <;> rfl

theorem spriteEvalStep_scanline (p : Ppu) (e : Nat) :
    (spriteEvalStep p e).scanline = p.scanline := by
  unfold spriteEvalStep
  split_ifs <;> rfl

theorem spriteEvalStep_control (p : Ppu) (e : Nat) :
    (spriteEvalStep p e).control = p.control := by
  unfold spriteEvalStep
  split_ifs <;> rfl

theorem inRangeEntriesFrom_congr (p q : Ppu) (hoam : p.oam = q.oam)
    (hsc : p.scanline = q.scanline) (hctl : p.control = q.control) :
    ∀ fuel e, inRangeEntriesFrom p e fuel = inRangeEntriesFrom q e fuel := by
  intro fuel
  induction fuel with
  | zero => intro e; rfl
  | succ f ih =>
    intro e
    simp only [inRangeEntriesFrom, spriteInRange, hoam, hsc, hctl, ih]

theorem spriteEvalStep_scanline_arr (p : Ppu) (e : Nat)
    (h : spriteInRange p e = true ∧ p.sprite_count < 8) :
    (spriteEvalStep p e).sprite_scanline
      = updOam p.sprite_scanline p.sprite_count (p.oam e) := by
  unfold spriteEvalStep
  rw [if_pos h, if_pos h.2]
  split_ifs <;> rfl

theorem spriteEvalStep_count_pos (p : Ppu) (e : Nat)
    (h : spriteInRange p e = true ∧ p.sprite_count < 8) :
    (spriteEvalStep p e).sprite_count = p.sprite_count + 1 := by
  have hc : p.sprite_count < 8 := h.2
  unfold spriteEvalStep
  rw [if_pos h]
  split_ifs <;> (dsimp only; simp only [u8]; omega)

theorem spriteEvalStep_skip (p : Ppu) (e : Nat)
    (h : ¬ (spriteInRange p e = true ∧ p.sprite_count < 8)) :
    spriteEvalStep p e = p := by
  unfold spriteEvalStep
  rw [if_neg h]

/-- The loop leaves `sprite_count` at the number of in-range entries it
saw, saturated at 8. -/
theorem spriteEvalLoop_count : ∀ (fuel : Nat) (p : Ppu) (e : Nat),
    e + fuel = 64 → p.sprite_count ≤ 8 →
    (spriteEvalLoop p e fuel).sprite_count
      = min (p.sprite_count + countInRangeFrom p e fuel) 8 := by
  intro fuel
  induction fuel with
  | zero =>
    intro p e he hc
    simp only [spriteEvalLoop, countInRangeFrom]
    omega
  | succ f ih =>
    intro p e he hc
    have he64 : e < 64 := by omega
    simp only [spriteEvalLoop]
    rw [if_pos ⟨he64, by omega⟩]
    by_cases hin : spriteInRange p e = true ∧ p.sprite_count < 8
    · have hcnt := spriteEvalStep_count_pos p e hin
      have ih' := ih (spriteEvalStep p e) (e + 1) (by omega) (by omega)
      rw [ih', hcnt,
        countInRangeFrom_congr (spriteEvalStep p e) p (spriteEvalStep_oam p e)
          (spriteEvalStep_scanline p e) (spriteEvalStep_control p e) f (e + 1)]
      simp only [countInRangeFrom]
      rw [if_pos hin.1]
      omega
    · rw [spriteEvalStep_skip p e hin]
      rw [ih p (e + 1) (by omega) hc]
      simp only [countInRangeFrom]
      by_cases hb : spriteInRange p e = true
      · have hc8 : ¬ p.sprite_count < 8 := fun hlt => hin ⟨hb, hlt⟩
        rw [if_pos hb]
        omega
      · rw [if_neg hb, Nat.zero_add]

/-- The loop fills secondary OAM with the in-range entries it meets, in
OAM order, never past slot 7. -/
theorem spriteEvalLoop_scanline : ∀ (fuel : Nat) (p : Ppu) (e : Nat),
    e + fuel = 64 → p.sprite_count ≤ 8 →
    ∀ j : Nat,
      (spriteEvalLoop p e fuel).sprite_scanline j
        = if p.sprite_count ≤ j ∧
             j < min (p.sprite_count + countInRangeFrom p e fuel) 8
          then (inRangeEntriesFrom p e fuel).getD (j - p.sprite_count) default
          else p.sprite_scanline j := by
  intro fuel
  induction fuel with
  | zero =>
    intro p e he hc j
    simp only [spriteEvalLoop, countInRangeFrom, inRangeEntriesFrom]
    rw [if_neg (by omega)]
  | succ f ih =>
    intro p e he hc j
    have he64 : e < 64 := by omega
    simp only [spriteEvalLoop]
    rw [if_pos ⟨he64, by omega⟩]
    by_cases hin : spriteInRange p e = true ∧ p.sprite_count < 8
    · have hcnt := spriteEvalStep_count_pos p e hin
      have harr := spriteEvalStep_scanline_arr p e hin
      have hih := ih (spriteEvalStep p e) (e + 1) (by omega) (by omega) j
      rw [hih, hcnt, harr,
        countInRangeFrom_congr (spriteEvalStep p e) p (spriteEvalStep_oam p e)
          (spriteEvalStep_scanline p e) (spriteEvalStep_control p e) f (e + 1),
        inRangeEntriesFrom_congr (spriteEvalStep p e) p (spriteEvalStep_oam p e)
          (spriteEvalStep_scanline p e) (spriteEvalStep_control p e) f (e + 1)]
      simp only [countInRangeFrom, inRangeEntriesFrom]
      rw [if_pos hin.1, if_pos hin.1]
      rcases Nat.lt_trichotomy j p.sprite_count with hj | hj | hj
      · rw [if_neg (by omega), if_neg (by omega)]
        unfold updOam
        rw [if_neg (by omega)]
      · subst hj
        rw [if_neg (by omega), if_pos ⟨le_refl _, by omega⟩]
        simp [updOam, List.singleton_append, Nat.sub_self]
      · by_cases hlt : j < min (p.sprite_count + 1 + countInRangeFrom p (e + 1) f) 8
        · rw [if_pos ⟨by omega, hlt⟩, if_pos ⟨by omega, by omega⟩]
          have hidx : j - p.sprite_count = (j - (p.sprite_count + 1)) + 1 := by omega
          rw [hidx]
          simp [List.singleton_append]
        · rw [if_neg (by omega), if_neg (by omega)]
          unfold updOam
          rw [if_neg (by omega)]
    · rw [spriteEvalStep_skip p e hin]
      rw [ih p (e + 1) (by omega) hc j]
      simp only [countInRangeFrom, inRangeEntriesFrom]
      by_cases hb : spriteInRange p e = true
      · have hc8 : ¬ p.sprite_count < 8 := fun hlt => hin ⟨hb, hlt⟩
        rw [if_pos hb, if_pos hb, if_neg (by omega), if_neg (by omega)]
      · rw [if_neg hb, if_neg hb]
        simp only [List.nil_append, Nat.zero_add]

/-- A bit getter `(x >> n) & 1 != 0` is `Nat.testBit`. -/
theorem bit_getter_eq_testBit (x n : Nat) :
    (((x >>> n) &&& 1) != 0) = x.testBit n := by
  unfold Nat.testBit
  rw [Nat.and_comm]

/-- Writing the sprite-overflow bit makes it read back exactly. -/
theorem sprite_overflow_set_get (st : Nat) (b : Bool) :
    Status.sprite_overflow (Status.set_sprite_overflow st b) = b := by
  unfold Status.sprite_overflow Status.set_sprite_overflow
  rw [bit_getter_eq_testBit]
  cases b with
  | false =>
    simp only [if_neg (by decide : ¬ (false = true)), Nat.or_zero,
      Nat.testBit_and]
    have h1 : Nat.testBit (0xFF ^^^ 0x20) 5 = false := by decide
    rw [h1]
    simp
  | true =>
    have h1 : Nat.testBit 32 5 = true := by decide
    simp [Nat.testBit_or, h1]

/-- C6 (amended): the cycle-257 evaluation copies the in-range OAM
entries into secondary OAM in OAM order, stopping at 8 (the count
saturates there), and sets `sprite_overflow` exactly when *at least 8*
(not 9) OAM entries intersect the scanline. -/
theorem sprite_eval_count_overflow (p : Ppu) :
    (spriteEvaluation p).sprite_count = min (inRangeCount p) 8 ∧
    (Status.sprite_overflow (spriteEvaluation p).status = true
      ↔ 8 ≤ inRangeCount p) ∧
    ∀ j : Nat, j < min (inRangeCount p) 8 →
      (spriteEvaluation p).sprite_scanline j
        = (inRangeEntriesFrom p 0 64).getD j default := by
  have key : ∀ q : Ppu, q.oam = p.oam → q.scanline = p.scanline →
      q.control = p.control → q.sprite_count = 0 →
      (spriteEvalLoop q 0 64).sprite_count = min (inRangeCount p) 8 := by
    intro q h1 h2 h3 h4
    have h5 := spriteEvalLoop_count 64 q 0 (by omega) (by omega)
    rw [h5, h4, countInRangeFrom_congr q p h1 h2 h3 64 0]
    simp [inRangeCount]
  refine ⟨?_, ?_, ?_⟩
  · simp only [spriteEvaluation]
    exact key (spriteEvalReset p) rfl rfl rfl rfl
  · simp only [spriteEvaluation]
    rw [sprite_overflow_set_get]
    rw [key (spriteEvalReset p) rfl rfl rfl rfl]
    simp only [decide_eq_true_eq]
    omega
  · intro j hj
    simp only [spriteEvaluation]
    have hq0 : (spriteEvalReset p).sprite_count = 0 := rfl
    have harr := spriteEvalLoop_scanline 64 (spriteEvalReset p) 0 (by omega)
      (by omega) j
    rw [hq0, countInRangeFrom_congr (spriteEvalReset p) p rfl rfl rfl 64 0,
      inRangeEntriesFrom_congr (spriteEvalReset p) p rfl rfl rfl 64 0] at harr
    rw [harr, if_pos ⟨Nat.zero_le j, by simpa [inRangeCount] using hj⟩,
      Nat.sub_zero]

/-- A PPU state on scanline 10 whose OAM has exactly 8 entries
intersecting that scanline (8x8 sprites). -/
def c6Ppu : Ppu :=
  { Ppu.new with
    scanline := 10
    cycle := 257
    oam := fun i => if i < 8 then ⟨10, 0, 0, 0⟩ else ⟨200, 0, 0, 0⟩ }

/-- C6 counterexample: with exactly 8 in-range sprites the claim wants
`sprite_overflow` to stay clear, but the evaluation sets it (the count
saturates at 8 and the flag is computed as `sprite_count >= 8`). -/
theorem sprite_overflow_set_with_exactly_8 :
    inRangeCount c6Ppu = 8 ∧
    Status.sprite_overflow (spriteEvaluation c6Ppu).status = true := by
  constructor <;> decide

end NesEmu
